import Mathlib

/-!
Shallow embedding of the `ProjectEscrowImproved` Solidity contract
(freelance escrow with milestone-based payments, auto-approval,
multi-admin dispute voting and an emergency pause switch), together with
proofs about its state machine, payout arithmetic and access control.

Addresses are natural numbers (0 is the zero address), amounts and
timestamps are natural numbers in the smallest unit / seconds, and every
externally callable operation is a function from the contract state and
the call context (sender, value, timestamp) to either an error or the
new state paired with the ordered trace of value transfers and status
commits it performed.
-/

namespace TrustchainEscrow

abbrev Address := Nat

inductive ProjectStatus
  | CREATED
  | ACTIVE
  | COMPLETED
  | CANCELLED
  | DISPUTED
  deriving DecidableEq, Repr

inductive MilestoneStatus
  | PENDING
  | SUBMITTED
  | APPROVED
  | REJECTED
  | DISPUTED
  deriving DecidableEq, Repr

structure Milestone where
  description : String
  amount : Nat
  deadline : Nat
  status : MilestoneStatus
  deliverableHash : String
  submittedAt : Nat
  deriving DecidableEq, Repr

structure Project where
  id : Nat
  client : Address
  freelancer : Address
  title : String
  descriptionHash : String
  totalAmount : Nat
  status : ProjectStatus
  createdAt : Nat
  acceptedAt : Nat
  fundsDeposited : Bool
  deriving DecidableEq, Repr

/-- Dispute record; `hasVoted` and `votes` embed the per-admin vote
mappings of the Solidity struct. -/
structure Dispute where
  projectId : Nat
  milestoneId : Nat
  initiator : Address
  reason : String
  isResolved : Bool
  createdAt : Nat
  hasVoted : Address → Bool
  votes : Address → Nat
  voteCount : Nat

/-- The zero value a Solidity mapping yields for an untouched key. -/
def Project.zero : Project :=
  { id := 0, client := 0, freelancer := 0, title := "", descriptionHash := ""
  , totalAmount := 0, status := .CREATED, createdAt := 0, acceptedAt := 0
  , fundsDeposited := false }

/-- The zero value a Solidity mapping yields for an untouched key. -/
def Dispute.zero : Dispute :=
  { projectId := 0, milestoneId := 0, initiator := 0, reason := ""
  , isResolved := false, createdAt := 0, hasVoted := fun _ => false
  , votes := fun _ => 0, voteCount := 0 }

/-- Error taxonomy: the five specified kinds plus the two EVM-level
reverts (array bounds, division by zero) and the re-entrancy guard. -/
inductive ErrorKind
  | validation
  | authorization
  | state
  | timeout
  | unavailable
  | outOfBounds
  | divisionByZero
  | reentrancy
  deriving DecidableEq, Repr

structure EscrowError where
  kind : ErrorKind
  msg : String
  deriving DecidableEq, Repr

/-- Trace events: value transfers plus the status / resolved-flag /
vote commits an operation performs on already existing records, in
execution order. -/
inductive Action
  | transferValue (recipient : Address) (amount : Nat)
  | setMilestoneStatus (pid mid : Nat) (st : MilestoneStatus)
  | setProjectStatus (pid : Nat) (st : ProjectStatus)
  | setDisputeResolved (did : Nat)
  | recordVote (did : Nat) (admin : Address) (percentage : Nat)
  deriving DecidableEq, Repr

/-- Contract storage. `locked` is the re-entrancy lock observed at the
entry of a `nonReentrant` operation; in this sequential embedding it is
acquired and released within a single operation, so it is false in
every state an operation returns. -/
structure EscrowState where
  owner : Address
  paused : Bool
  locked : Bool
  projectCounter : Nat
  disputeCounter : Nat
  platformFeePercent : Nat
  projects : Nat → Project
  projectMilestones : Nat → List Milestone
  disputes : Nat → Dispute
  userProjects : Address → List Nat
  userRatings : Address → Nat
  userRatingCount : Address → Nat
  isAdmin : Address → Bool
  adminList : List Address

/-- Point update of a Nat-keyed mapping. -/
def setFn {β : Type} (f : Nat → β) (k : Nat) (v : β) : Nat → β :=
  fun x => if x = k then v else f x

def DISPUTE_TIMEOUT : Nat := 3 * 86400

def AUTO_APPROVE_TIMEOUT : Nat := 7 * 86400

def REQUIRED_ADMIN_VOTES : Nat := 2

/-- Constructor: the deployer becomes owner and the first admin. -/
def initialState (deployer : Address) : EscrowState :=
  { owner := deployer, paused := false, locked := false
  , projectCounter := 0, disputeCounter := 0, platformFeePercent := 2
  , projects := fun _ => Project.zero
  , projectMilestones := fun _ => []
  , disputes := fun _ => Dispute.zero
  , userProjects := fun _ => []
  , userRatings := fun _ => 0
  , userRatingCount := fun _ => 0
  , isAdmin := setFn (fun _ => false) deployer true
  , adminList := [deployer] }

abbrev EscrowResult := Except EscrowError (EscrowState × List Action)

/-- `allMilestonesApproved`: true iff every milestone of the project is
APPROVED. -/
def allMilestonesApproved (s : EscrowState) (pid : Nat) : Bool :=
  (s.projectMilestones pid).all (fun m => m.status = .APPROVED)

/-- `getUserRating`: average rating, 0 when the user has no ratings. -/
def getUserRating (s : EscrowState) (user : Address) : Nat :=
  if s.userRatingCount user = 0 then 0
  else s.userRatings user / s.userRatingCount user

/-- `canAutoApprove` view. -/
def canAutoApprove (s : EscrowState) (now pid mid : Nat) : Bool :=
  if pid ≥ s.projectCounter then false
  else if mid ≥ (s.projectMilestones pid).length then false
  else
    match (s.projectMilestones pid)[mid]? with
    | none => false
    | some m => m.status = .SUBMITTED ∧ now ≥ m.submittedAt + AUTO_APPROVE_TIMEOUT

/-- `addAdmin`: owner-only, rejects duplicates and the zero address,
appends to the roster list. -/
def addAdmin (s : EscrowState) (sender a : Address) : EscrowResult :=
  if ¬ sender = s.owner then
    .error ⟨.authorization, "Ownable: caller is not the owner"⟩
  else if s.isAdmin a then .error ⟨.state, "Already an admin"⟩
  else if a = 0 then .error ⟨.validation, "Invalid address"⟩
  else .ok ({ s with
                isAdmin := setFn s.isAdmin a true,
                adminList := s.adminList ++ [a] }, [])

/-- Swap-with-last-and-truncate removal used by `removeAdmin`: replace
the first occurrence with the last element and pop. -/
def swapRemove (l : List Address) (a : Address) : List Address :=
  match l.findIdx? (· = a) with
  | none => l
  | some i => (l.set i (l.getLastD 0)).dropLast

/-- `removeAdmin`: owner-only, rejects non-members and the last
remaining member, removes by swap-with-last and truncate. -/
def removeAdmin (s : EscrowState) (sender a : Address) : EscrowResult :=
  if ¬ sender = s.owner then
    .error ⟨.authorization, "Ownable: caller is not the owner"⟩
  else if ¬ s.isAdmin a then .error ⟨.state, "Not an admin"⟩
  else if ¬ s.adminList.length > 1 then
    .error ⟨.state, "Cannot remove last admin"⟩
  else .ok ({ s with
                isAdmin := setFn s.isAdmin a false,
                adminList := swapRemove s.adminList a }, [])

/-- `pause`: owner-only; the inherited `_pause` rejects when already
paused. -/
def pause (s : EscrowState) (sender : Address) : EscrowResult :=
  if ¬ sender = s.owner then
    .error ⟨.authorization, "Ownable: caller is not the owner"⟩
  else if s.paused then .error ⟨.unavailable, "Pausable: paused"⟩
  else .ok ({ s with paused := true }, [])

/-- `unpause`: owner-only; the inherited `_unpause` rejects when not
paused. -/
def unpause (s : EscrowState) (sender : Address) : EscrowResult :=
  if ¬ sender = s.owner then
    .error ⟨.authorization, "Ownable: caller is not the owner"⟩
  else if ¬ s.paused then .error ⟨.state, "Pausable: not paused"⟩
  else .ok ({ s with paused := false }, [])

/-- `setPlatformFee`: owner-only, at most 10 percent.  The source has
no pause gate on this operation. -/
def setPlatformFee (s : EscrowState) (sender : Address) (feePercent : Nat) :
    EscrowResult :=
  if ¬ sender = s.owner then
    .error ⟨.authorization, "Ownable: caller is not the owner"⟩
  else if ¬ feePercent ≤ 10 then
    .error ⟨.validation, "Fee cannot exceed 10%"⟩
  else .ok ({ s with platformFeePercent := feePercent }, [])

/-- The per-index validation loop of `createProject`, reporting the
first violated requirement in loop order. -/
def checkMilestoneInputs (now : Nat) :
    List Nat → List Nat → Option EscrowError
  | [], _ => none
  | a :: amounts, [] =>
      if ¬ a > 0 then some ⟨.validation, "Milestone amount must be > 0"⟩
      else checkMilestoneInputs now amounts []
  | a :: amounts, d :: deadlines =>
      if ¬ a > 0 then some ⟨.validation, "Milestone amount must be > 0"⟩
      else if ¬ d > now then
        some ⟨.validation, "Deadline must be in future"⟩
      else checkMilestoneInputs now amounts deadlines

/-- The milestone records `createProject` pushes, in loop order. -/
def mkMilestones : List String → List Nat → List Nat → List Milestone
  | desc :: descs, a :: amounts, d :: deadlines =>
      { description := desc, amount := a, deadline := d
      , status := .PENDING, deliverableHash := "", submittedAt := 0 }
        :: mkMilestones descs amounts deadlines
  | _, _, _ => []

/-- `createProject`. -/
def createProject (s : EscrowState) (sender : Address) (value now : Nat)
    (title descriptionHash : String) (descs : List String)
    (amounts deadlines : List Nat) :
    Except EscrowError (EscrowState × List Action × Nat) :=
  if s.paused then .error ⟨.unavailable, "Pausable: paused"⟩
  else if ¬ descs.length > 0 then
    .error ⟨.validation, "At least one milestone required"⟩
  else if ¬ (descs.length = amounts.length ∧
             amounts.length = deadlines.length) then
    .error ⟨.validation, "Milestone arrays must be same length"⟩
  else
    match checkMilestoneInputs now amounts deadlines with
    | some e => .error e
    | none =>
      let totalAmount := amounts.sum
      if ¬ value ≥ totalAmount then
        .error ⟨.validation, "Insufficient funds deposited"⟩
      else
        let projectId := s.projectCounter
        let p0 := s.projects projectId
        let newProject : Project :=
          { p0 with
              id := projectId, client := sender, title := title,
              descriptionHash := descriptionHash, totalAmount := totalAmount,
              status := .CREATED, createdAt := now, fundsDeposited := true }
        let s' : EscrowState :=
          { s with
              projectCounter := s.projectCounter + 1,
              projects := setFn s.projects projectId newProject,
              projectMilestones := setFn s.projectMilestones projectId
                (s.projectMilestones projectId ++
                  mkMilestones descs amounts deadlines),
              userProjects := setFn s.userProjects sender
                (s.userProjects sender ++ [projectId]) }
        let tr : List Action :=
          if value > totalAmount then
            [.transferValue sender (value - totalAmount)] else []
        .ok (s', tr, projectId)

/-- `acceptProject`. -/
def acceptProject (s : EscrowState) (sender : Address) (now pid : Nat) :
    EscrowResult :=
  if ¬ pid < s.projectCounter then
    .error ⟨.validation, "Project does not exist"⟩
  else if s.paused then .error ⟨.unavailable, "Pausable: paused"⟩
  else
    let project := s.projects pid
    if ¬ project.status = .CREATED then
      .error ⟨.state, "Project not available"⟩
    else if ¬ project.freelancer = 0 then
      .error ⟨.state, "Project already accepted"⟩
    else if sender = project.client then
      .error ⟨.authorization, "Client cannot accept own project"⟩
    else
      .ok ({ s with
               projects := setFn s.projects pid
                 { project with
                     freelancer := sender, status := .ACTIVE,
                     acceptedAt := now },
               userProjects := setFn s.userProjects sender
                 (s.userProjects sender ++ [pid]) },
           [.setProjectStatus pid .ACTIVE])

/-- `submitMilestone`. -/
def submitMilestone (s : EscrowState) (sender : Address) (now pid mid : Nat)
    (deliverableHash : String) : EscrowResult :=
  if ¬ pid < s.projectCounter then
    .error ⟨.validation, "Project does not exist"⟩
  else if ¬ sender = (s.projects pid).freelancer then
    .error ⟨.authorization, "Only freelancer can call this"⟩
  else if s.paused then .error ⟨.unavailable, "Pausable: paused"⟩
  else if ¬ (s.projects pid).status = .ACTIVE then
    .error ⟨.state, "Project not active"⟩
  else if ¬ mid < (s.projectMilestones pid).length then
    .error ⟨.validation, "Invalid milestone"⟩
  else
    match (s.projectMilestones pid)[mid]? with
    | none => .error ⟨.outOfBounds, "array index out of bounds"⟩
    | some milestone =>
      if ¬ milestone.status = .PENDING then
        .error ⟨.state, "Milestone not pending"⟩
      else if ¬ deliverableHash.length > 0 then
        .error ⟨.validation, "Deliverable hash required"⟩
      else
        .ok ({ s with
                 projectMilestones := setFn s.projectMilestones pid
                   ((s.projectMilestones pid).set mid
                     { milestone with
                         status := .SUBMITTED,
                         deliverableHash := deliverableHash,
                         submittedAt := now }) },
             [.setMilestoneStatus pid mid .SUBMITTED])

/-- `_releaseMilestonePayment`: marks the milestone APPROVED, then
transfers `amount - fee` to the freelancer and the fee to the owner,
then flips the project to COMPLETED when every milestone is APPROVED.
The trace records the commits and transfers in this source order. -/
def releaseMilestonePayment (s : EscrowState) (pid mid : Nat) :
    EscrowResult :=
  match (s.projectMilestones pid)[mid]? with
  | none => .error ⟨.outOfBounds, "array index out of bounds"⟩
  | some milestone =>
    let s1 : EscrowState :=
      { s with
          projectMilestones := setFn s.projectMilestones pid
            ((s.projectMilestones pid).set mid
              { milestone with status := .APPROVED }) }
    let platformFee := milestone.amount * s.platformFeePercent / 100
    let freelancerAmount := milestone.amount - platformFee
    let tr : List Action :=
      [.setMilestoneStatus pid mid .APPROVED,
       .transferValue (s.projects pid).freelancer freelancerAmount,
       .transferValue s.owner platformFee]
    if allMilestonesApproved s1 pid then
      .ok ({ s1 with
               projects := setFn s1.projects pid
                 { s1.projects pid with status := .COMPLETED } },
           tr ++ [.setProjectStatus pid .COMPLETED])
    else .ok (s1, tr)

/-- `approveMilestone`: client-only manual approval of a SUBMITTED
milestone of an ACTIVE project. -/
def approveMilestone (s : EscrowState) (sender : Address) (pid mid : Nat) :
    EscrowResult :=
  if ¬ pid < s.projectCounter then
    .error ⟨.validation, "Project does not exist"⟩
  else if ¬ sender = (s.projects pid).client then
    .error ⟨.authorization, "Only client can call this"⟩
  else if s.locked then
    .error ⟨.reentrancy, "ReentrancyGuard: reentrant call"⟩
  else if s.paused then .error ⟨.unavailable, "Pausable: paused"⟩
  else if ¬ (s.projects pid).status = .ACTIVE then
    .error ⟨.state, "Project not active"⟩
  else if ¬ mid < (s.projectMilestones pid).length then
    .error ⟨.validation, "Invalid milestone"⟩
  else
    match (s.projectMilestones pid)[mid]? with
    | none => .error ⟨.outOfBounds, "array index out of bounds"⟩
    | some milestone =>
      if ¬ milestone.status = .SUBMITTED then
        .error ⟨.state, "Milestone not submitted"⟩
      else releaseMilestonePayment s pid mid

/-- `autoApproveMilestone`: callable by any address once the 7-day
auto-approval window has elapsed; otherwise the same release as manual
approval. -/
def autoApproveMilestone (s : EscrowState) (_sender : Address)
    (now pid mid : Nat) : EscrowResult :=
  if ¬ pid < s.projectCounter then
    .error ⟨.validation, "Project does not exist"⟩
  else if s.locked then
    .error ⟨.reentrancy, "ReentrancyGuard: reentrant call"⟩
  else if s.paused then .error ⟨.unavailable, "Pausable: paused"⟩
  else if ¬ (s.projects pid).status = .ACTIVE then
    .error ⟨.state, "Project not active"⟩
  else if ¬ mid < (s.projectMilestones pid).length then
    .error ⟨.validation, "Invalid milestone"⟩
  else
    match (s.projectMilestones pid)[mid]? with
    | none => .error ⟨.outOfBounds, "array index out of bounds"⟩
    | some milestone =>
      if ¬ milestone.status = .SUBMITTED then
        .error ⟨.state, "Milestone not submitted"⟩
      else if ¬ now ≥ milestone.submittedAt + AUTO_APPROVE_TIMEOUT then
        .error ⟨.timeout, "Auto-approval timeout not reached"⟩
      else releaseMilestonePayment s pid mid

/-- `raiseDispute`: a participant disputes a SUBMITTED milestone within
the 3-day window; the project and milestone both become DISPUTED.  The
vote mappings of the slot are left as stored, as in the source. -/
def raiseDispute (s : EscrowState) (sender : Address) (now pid mid : Nat)
    (reason : String) : Except EscrowError (EscrowState × List Action × Nat) :=
  if ¬ pid < s.projectCounter then
    .error ⟨.validation, "Project does not exist"⟩
  else if ¬ (sender = (s.projects pid).client ∨
             sender = (s.projects pid).freelancer) then
    .error ⟨.authorization, "Only project participants can call this"⟩
  else if s.paused then .error ⟨.unavailable, "Pausable: paused"⟩
  else if ¬ (s.projects pid).status = .ACTIVE then
    .error ⟨.state, "Project not active"⟩
  else if ¬ mid < (s.projectMilestones pid).length then
    .error ⟨.validation, "Invalid milestone"⟩
  else
    match (s.projectMilestones pid)[mid]? with
    | none => .error ⟨.outOfBounds, "array index out of bounds"⟩
    | some milestone =>
      if ¬ milestone.status = .SUBMITTED then
        .error ⟨.state, "Can only dispute submitted milestones"⟩
      else if ¬ now ≤ milestone.submittedAt + DISPUTE_TIMEOUT then
        .error ⟨.timeout, "Dispute period expired"⟩
      else
        let disputeId := s.disputeCounter
        let d0 := s.disputes disputeId
        let d' : Dispute :=
          { d0 with
              projectId := pid, milestoneId := mid, initiator := sender,
              reason := reason, isResolved := false, createdAt := now,
              voteCount := 0 }
        .ok ({ s with
                 disputeCounter := s.disputeCounter + 1,
                 disputes := setFn s.disputes disputeId d',
                 projects := setFn s.projects pid
                   { s.projects pid with status := .DISPUTED },
                 projectMilestones := setFn s.projectMilestones pid
                   ((s.projectMilestones pid).set mid
                     { milestone with status := .DISPUTED }) },
             [.setProjectStatus pid .DISPUTED,
              .setMilestoneStatus pid mid .DISPUTED],
             disputeId)

/-- `_executeDisputeResolution`: averages the percentages of the roster
members who voted, transfers the split (no platform fee), and only then
commits the resolved flag, milestone APPROVED and project ACTIVE — the
trace records the transfers before the commits, as in the source. -/
def executeDisputeResolution (s : EscrowState) (did : Nat) : EscrowResult :=
  if s.locked then
    .error ⟨.reentrancy, "ReentrancyGuard: reentrant call"⟩
  else
    let dispute := s.disputes did
    if dispute.isResolved then .error ⟨.state, "Already resolved"⟩
    else
      let voters := s.adminList.filter (fun a => dispute.hasVoted a)
      let totalPercentage := (voters.map dispute.votes).sum
      let validVotes := voters.length
      if validVotes = 0 then .error ⟨.divisionByZero, "division by zero"⟩
      else
        let avgPercentage := totalPercentage / validVotes
        let pid := dispute.projectId
        let mid := dispute.milestoneId
        let project := s.projects pid
        match (s.projectMilestones pid)[mid]? with
        | none => .error ⟨.outOfBounds, "array index out of bounds"⟩
        | some milestone =>
          let freelancerAmount := milestone.amount * avgPercentage / 100
          let clientAmount := milestone.amount - freelancerAmount
          let transfers : List Action :=
            (if freelancerAmount > 0 then
              [.transferValue project.freelancer freelancerAmount] else []) ++
            (if clientAmount > 0 then
              [.transferValue project.client clientAmount] else [])
          .ok ({ s with
                   disputes := setFn s.disputes did
                     { dispute with isResolved := true },
                   projectMilestones := setFn s.projectMilestones pid
                     ((s.projectMilestones pid).set mid
                       { milestone with status := .APPROVED }),
                   projects := setFn s.projects pid
                     { project with status := .ACTIVE } },
               transfers ++
                 [.setDisputeResolved did,
                  .setMilestoneStatus pid mid .APPROVED,
                  .setProjectStatus pid .ACTIVE])

/-- `voteOnDispute`: one vote per admin; reaching the 2-vote quorum
triggers the resolution synchronously. -/
def voteOnDispute (s : EscrowState) (sender : Address) (did pct : Nat) :
    EscrowResult :=
  if ¬ (s.isAdmin sender = true ∨ sender = s.owner) then
    .error ⟨.authorization, "Only admin can call this"⟩
  else if s.paused then .error ⟨.unavailable, "Pausable: paused"⟩
  else if ¬ did < s.disputeCounter then
    .error ⟨.validation, "Dispute does not exist"⟩
  else
    let dispute := s.disputes did
    if dispute.isResolved then
      .error ⟨.state, "Dispute already resolved"⟩
    else if ¬ pct ≤ 100 then .error ⟨.validation, "Invalid percentage"⟩
    else if dispute.hasVoted sender then .error ⟨.state, "Already voted"⟩
    else
      let d' : Dispute :=
        { dispute with
            hasVoted := setFn dispute.hasVoted sender true,
            votes := setFn dispute.votes sender pct,
            voteCount := dispute.voteCount + 1 }
      let s1 : EscrowState := { s with disputes := setFn s.disputes did d' }
      let tr1 : List Action := [.recordVote did sender pct]
      if d'.voteCount ≥ REQUIRED_ADMIN_VOTES then
        match executeDisputeResolution s1 did with
        | .error e => .error e
        | .ok (s2, tr2) => .ok (s2, tr1 ++ tr2)
      else .ok (s1, tr1)

/-- `rateUser`: unauthenticated rating accumulation. -/
def rateUser (s : EscrowState) (_sender user : Address) (rating : Nat) :
    EscrowResult :=
  if s.paused then .error ⟨.unavailable, "Pausable: paused"⟩
  else if ¬ (rating ≥ 1 ∧ rating ≤ 5) then
    .error ⟨.validation, "Rating must be between 1 and 5"⟩
  else
    .ok ({ s with
             userRatings := setFn s.userRatings user
               (s.userRatings user + rating),
             userRatingCount := setFn s.userRatingCount user
               (s.userRatingCount user + 1) }, [])

/-- `cancelProject`: client-only cancellation of an unaccepted CREATED
project, refunding the full deposit. -/
def cancelProject (s : EscrowState) (sender : Address) (pid : Nat) :
    EscrowResult :=
  if ¬ pid < s.projectCounter then
    .error ⟨.validation, "Project does not exist"⟩
  else if ¬ sender = (s.projects pid).client then
    .error ⟨.authorization, "Only client can call this"⟩
  else if s.locked then
    .error ⟨.reentrancy, "ReentrancyGuard: reentrant call"⟩
  else if s.paused then .error ⟨.unavailable, "Pausable: paused"⟩
  else if ¬ (s.projects pid).status = .CREATED then
    .error ⟨.state, "Can only cancel created projects"⟩
  else if ¬ (s.projects pid).freelancer = 0 then
    .error ⟨.state, "Cannot cancel accepted project"⟩
  else
    .ok ({ s with
             projects := setFn s.projects pid
               { s.projects pid with status := .CANCELLED } },
         [.setProjectStatus pid .CANCELLED,
          .transferValue (s.projects pid).client (s.projects pid).totalAmount])

/-- The public mutating operation surface, with its call context. -/
inductive Op
  | addAdmin (sender a : Address)
  | removeAdmin (sender a : Address)
  | pause (sender : Address)
  | unpause (sender : Address)
  | createProject (sender : Address) (value now : Nat)
      (title descriptionHash : String) (descs : List String)
      (amounts deadlines : List Nat)
  | acceptProject (sender : Address) (now pid : Nat)
  | submitMilestone (sender : Address) (now pid mid : Nat)
      (deliverableHash : String)
  | approveMilestone (sender : Address) (pid mid : Nat)
  | autoApproveMilestone (sender : Address) (now pid mid : Nat)
  | raiseDispute (sender : Address) (now pid mid : Nat) (reason : String)
  | voteOnDispute (sender : Address) (did pct : Nat)
  | rateUser (sender user : Address) (rating : Nat)
  | cancelProject (sender : Address) (pid : Nat)
  | setPlatformFee (sender : Address) (feePercent : Nat)

/-- Dispatch one public operation (return values dropped). -/
def applyOp (s : EscrowState) : Op → EscrowResult
  | .addAdmin sender a => addAdmin s sender a
  | .removeAdmin sender a => removeAdmin s sender a
  | .pause sender => pause s sender
  | .unpause sender => unpause s sender
  | .createProject sender value now t dh ds amounts deadlines =>
      (createProject s sender value now t dh ds amounts deadlines).map
        (fun r => (r.1, r.2.1))
  | .acceptProject sender now pid => acceptProject s sender now pid
  | .submitMilestone sender now pid mid h => submitMilestone s sender now pid mid h
  | .approveMilestone sender pid mid => approveMilestone s sender pid mid
  | .autoApproveMilestone sender now pid mid =>
      autoApproveMilestone s sender now pid mid
  | .raiseDispute sender now pid mid reason =>
      (raiseDispute s sender now pid mid reason).map (fun r => (r.1, r.2.1))
  | .voteOnDispute sender did pct => voteOnDispute s sender did pct
  | .rateUser sender user rating => rateUser s sender user rating
  | .cancelProject sender pid => cancelProject s sender pid
  | .setPlatformFee sender feePercent => setPlatformFee s sender feePercent

/-- States reachable from a fresh deployment by successful public
operations. -/
inductive Reachable (deployer : Address) : EscrowState → Prop
  | init : Reachable deployer (initialState deployer)
  | next {s s' : EscrowState} {op : Op} {tr : List Action} :
      Reachable deployer s → applyOp s op = .ok (s', tr) →
      Reachable deployer s'

/-- Did the operation succeed? -/
def resOk (r : EscrowResult) : Bool :=
  match r with
  | .ok _ => true
  | .error _ => false

/-- Error kind of a failed operation. -/
def resErrKind (r : EscrowResult) : Option ErrorKind :=
  match r with
  | .ok _ => none
  | .error e => some e.kind

/-- Trace of a successful operation (empty on failure). -/
def resTrace (r : EscrowResult) : List Action :=
  match r with
  | .ok (_, tr) => tr
  | .error _ => []

/-- Resulting state of a successful operation (the input state on
failure). -/
def resState (s : EscrowState) (r : EscrowResult) : EscrowState :=
  match r with
  | .ok (s', _) => s'
  | .error _ => s

/-- Milestone lookup. -/
def milestoneAt (s : EscrowState) (pid mid : Nat) : Option Milestone :=
  (s.projectMilestones pid)[mid]?

/-- A concrete ACTIVE project used by the concrete scenarios: client 1,
freelancer 2, one milestone of amount 100. -/
def baseProject : Project :=
  { id := 0, client := 1, freelancer := 2, title := "T", descriptionHash := "d"
  , totalAmount := 100, status := .ACTIVE, createdAt := 0, acceptedAt := 5
  , fundsDeposited := true }

/-- The single milestone of `baseProject`, already SUBMITTED. -/
def baseMilestone : Milestone :=
  { description := "m", amount := 100, deadline := 1000000
  , status := .SUBMITTED, deliverableHash := "h", submittedAt := 10 }

/-- Concrete scenario state: owner 9, admins 9 and 5, project 0 ACTIVE
with milestone 0 SUBMITTED, default 2 percent fee. -/
def demoState : EscrowState :=
  { owner := 9, paused := false, locked := false
  , projectCounter := 1, disputeCounter := 0, platformFeePercent := 2
  , projects := setFn (fun _ => Project.zero) 0 baseProject
  , projectMilestones := setFn (fun _ => []) 0 [baseMilestone]
  , disputes := fun _ => Dispute.zero
  , userProjects := fun _ => []
  , userRatings := fun _ => 0
  , userRatingCount := fun _ => 0
  , isAdmin := setFn (setFn (fun _ => false) 9 true) 5 true
  , adminList := [9, 5] }

/-- `demoState` after milestone 0 has been disputed: dispute 0 is open
and unresolved, project and milestone are DISPUTED. -/
def disputedState : EscrowState :=
  { demoState with
      disputeCounter := 1
    , projects := setFn (fun _ => Project.zero) 0
        { baseProject with status := .DISPUTED }
    , projectMilestones := setFn (fun _ => []) 0
        [{ baseMilestone with status := .DISPUTED }]
    , disputes := setFn (fun _ => Dispute.zero) 0
        { Dispute.zero with
            projectId := 0, milestoneId := 0, initiator := 1,
            reason := "r", createdAt := 12 } }

/-- `demoState` with milestone 0 already APPROVED and paid out. -/
def approvedState : EscrowState :=
  { demoState with
      projectMilestones := setFn (fun _ => []) 0
        [{ baseMilestone with status := .APPROVED }] }

section OkInversion

variable {s s' : EscrowState} {sender a user : Address}
variable {now pid mid did pct rating feePercent : Nat}
variable {tr : List Action}

/-- Success inversion for `addAdmin`. -/
theorem addAdmin_ok (h : addAdmin s sender a = .ok (s', tr)) :
    sender = s.owner ∧ s.isAdmin a = false ∧ ¬ a = 0 ∧
    s' = { s with
             isAdmin := setFn s.isAdmin a true,
             adminList := s.adminList ++ [a] } ∧
    tr = [] := by
  simp only [addAdmin] at h
  repeat' split at h
  all_goals try exact (Except.noConfusion h)
  simp only [Except.ok.injEq, Prod.mk.injEq] at h
  obtain ⟨hs, ht⟩ := h
  subst hs; subst ht
  simp_all

/-- Success inversion for `removeAdmin`. -/
theorem removeAdmin_ok (h : removeAdmin s sender a = .ok (s', tr)) :
    sender = s.owner ∧ s.isAdmin a = true ∧ 1 < s.adminList.length ∧
    s' = { s with
             isAdmin := setFn s.isAdmin a false,
             adminList := swapRemove s.adminList a } ∧
    tr = [] := by
  simp only [removeAdmin] at h
  repeat' split at h
  all_goals try exact (Except.noConfusion h)
  simp only [Except.ok.injEq, Prod.mk.injEq] at h
  obtain ⟨hs, ht⟩ := h
  subst hs; subst ht
  simp_all

/-- Success inversion for `pause`. -/
theorem pause_ok (h : pause s sender = .ok (s', tr)) :
    sender = s.owner ∧ s.paused = false ∧
    s' = { s with paused := true } ∧ tr = [] := by
  simp only [pause] at h
  repeat' split at h
  all_goals try exact (Except.noConfusion h)
  simp only [Except.ok.injEq, Prod.mk.injEq] at h
  obtain ⟨hs, ht⟩ := h
  subst hs; subst ht
  simp_all

/-- Success inversion for `unpause`. -/
theorem unpause_ok (h : unpause s sender = .ok (s', tr)) :
    sender = s.owner ∧ s.paused = true ∧
    s' = { s with paused := false } ∧ tr = [] := by
  simp only [unpause] at h
  repeat' split at h
  all_goals try exact (Except.noConfusion h)
  simp only [Except.ok.injEq, Prod.mk.injEq] at h
  obtain ⟨hs, ht⟩ := h
  subst hs; subst ht
  simp_all

/-- Success inversion for `setPlatformFee`. -/
theorem setPlatformFee_ok (h : setPlatformFee s sender feePercent = .ok (s', tr)) :
    sender = s.owner ∧ feePercent ≤ 10 ∧
    s' = { s with platformFeePercent := feePercent } ∧ tr = [] := by
  simp only [setPlatformFee] at h
  repeat' split at h
  all_goals try exact (Except.noConfusion h)
  simp only [Except.ok.injEq, Prod.mk.injEq] at h
  obtain ⟨hs, ht⟩ := h
  subst hs; subst ht
  simp_all

/-- Success inversion for `rateUser`. -/
theorem rateUser_ok (h : rateUser s sender user rating = .ok (s', tr)) :
    s.paused = false ∧ 1 ≤ rating ∧ rating ≤ 5 ∧
    s' = { s with
             userRatings := setFn s.userRatings user
               (s.userRatings user + rating),
             userRatingCount := setFn s.userRatingCount user
               (s.userRatingCount user + 1) } ∧
    tr = [] := by
  simp only [rateUser] at h
  repeat' split at h
  all_goals try exact (Except.noConfusion h)
  simp only [Except.ok.injEq, Prod.mk.injEq] at h
  obtain ⟨hs, ht⟩ := h
  subst hs; subst ht
  simp_all

/-- Success inversion for `acceptProject`. -/
theorem acceptProject_ok (h : acceptProject s sender now pid = .ok (s', tr)) :
    pid < s.projectCounter ∧ s.paused = false ∧
    (s.projects pid).status = .CREATED ∧ (s.projects pid).freelancer = 0 ∧
    ¬ sender = (s.projects pid).client ∧
    s' = { s with
             projects := setFn s.projects pid
               { s.projects pid with
                   freelancer := sender, status := .ACTIVE,
                   acceptedAt := now },
             userProjects := setFn s.userProjects sender
               (s.userProjects sender ++ [pid]) } ∧
    tr = [.setProjectStatus pid .ACTIVE] := by
  simp only [acceptProject] at h
  repeat' split at h
  all_goals try exact (Except.noConfusion h)
  simp only [Except.ok.injEq, Prod.mk.injEq] at h
  obtain ⟨hs, ht⟩ := h
  subst hs; subst ht
  simp_all

/-- Success inversion for `submitMilestone`. -/
theorem submitMilestone_ok {dh : String}
    (h : submitMilestone s sender now pid mid dh = .ok (s', tr)) :
    pid < s.projectCounter ∧ sender = (s.projects pid).freelancer ∧
    s.paused = false ∧ (s.projects pid).status = .ACTIVE ∧
    mid < (s.projectMilestones pid).length ∧
    ∃ m, (s.projectMilestones pid)[mid]? = some m ∧
      m.status = .PENDING ∧ 0 < dh.length ∧
      s' = { s with
               projectMilestones := setFn s.projectMilestones pid
                 ((s.projectMilestones pid).set mid
                   { m with
                       status := .SUBMITTED, deliverableHash := dh,
                       submittedAt := now }) } ∧
      tr = [.setMilestoneStatus pid mid .SUBMITTED] := by
  simp only [submitMilestone] at h
  repeat' split at h
  all_goals try exact (Except.noConfusion h)
  simp only [Except.ok.injEq, Prod.mk.injEq] at h
  obtain ⟨hs, ht⟩ := h
  subst hs; subst ht
  simp_all
  all_goals omega

/-- Success inversion for `cancelProject`. -/
theorem cancelProject_ok (h : cancelProject s sender pid = .ok (s', tr)) :
    pid < s.projectCounter ∧ sender = (s.projects pid).client ∧
    s.locked = false ∧ s.paused = false ∧
    (s.projects pid).status = .CREATED ∧ (s.projects pid).freelancer = 0 ∧
    s' = { s with
             projects := setFn s.projects pid
               { s.projects pid with status := .CANCELLED } } ∧
    tr = [.setProjectStatus pid .CANCELLED,
          .transferValue (s.projects pid).client
            (s.projects pid).totalAmount] := by
  simp only [cancelProject] at h
  repeat' split at h
  all_goals try exact (Except.noConfusion h)
  simp only [Except.ok.injEq, Prod.mk.injEq] at h
  obtain ⟨hs, ht⟩ := h
  subst hs; subst ht
  simp_all

end OkInversion

/-- The state after marking milestone `mid` of project `pid` APPROVED,
where `m` is its previous record. -/
def markApproved (s : EscrowState) (pid mid : Nat) (m : Milestone) :
    EscrowState :=
  { s with
      projectMilestones := setFn s.projectMilestones pid
        ((s.projectMilestones pid).set mid { m with status := .APPROVED }) }

/-- The roster members who voted on dispute `did`, in roster order. -/
def disputeVoters (s : EscrowState) (did : Nat) : List Address :=
  s.adminList.filter (fun a => (s.disputes did).hasVoted a)

/-- The floor average percentage of the votes cast by current roster
members on dispute `did`. -/
def disputeAvgPercent (s : EscrowState) (did : Nat) : Nat :=
  ((disputeVoters s did).map (s.disputes did).votes).sum /
    (disputeVoters s did).length

/-- The state after recording `sender`'s vote of `pct` on dispute
`did`. -/
def withVote (s : EscrowState) (sender : Address) (did pct : Nat) :
    EscrowState :=
  { s with
      disputes := setFn s.disputes did
        { s.disputes did with
            hasVoted := setFn (s.disputes did).hasVoted sender true,
            votes := setFn (s.disputes did).votes sender pct,
            voteCount := (s.disputes did).voteCount + 1 } }

section OkInversion2

variable {s s' : EscrowState} {sender : Address}
variable {now pid mid did pct value : Nat}
variable {tr : List Action}

/-- Success inversion for `_releaseMilestonePayment`. -/
theorem releaseMilestonePayment_ok
    (h : releaseMilestonePayment s pid mid = .ok (s', tr)) :
    ∃ m, (s.projectMilestones pid)[mid]? = some m ∧
      ((allMilestonesApproved (markApproved s pid mid m) pid = true ∧
        s' = { markApproved s pid mid m with
                 projects := setFn s.projects pid
                   { s.projects pid with status := .COMPLETED } } ∧
        tr = [.setMilestoneStatus pid mid .APPROVED,
              .transferValue (s.projects pid).freelancer
                (m.amount - m.amount * s.platformFeePercent / 100),
              .transferValue s.owner
                (m.amount * s.platformFeePercent / 100),
              .setProjectStatus pid .COMPLETED]) ∨
       (allMilestonesApproved (markApproved s pid mid m) pid = false ∧
        s' = markApproved s pid mid m ∧
        tr = [.setMilestoneStatus pid mid .APPROVED,
              .transferValue (s.projects pid).freelancer
                (m.amount - m.amount * s.platformFeePercent / 100),
              .transferValue s.owner
                (m.amount * s.platformFeePercent / 100)])) := by
  simp only [releaseMilestonePayment] at h
  repeat' split at h
  all_goals try exact (Except.noConfusion h)
  all_goals
    simp only [Except.ok.injEq, Prod.mk.injEq] at h
    obtain ⟨hs, ht⟩ := h
    subst hs; subst ht
  · exact ⟨_, by simp_all [markApproved], Or.inl ⟨by simp_all [markApproved], rfl, rfl⟩⟩
  · exact ⟨_, by simp_all [markApproved], Or.inr ⟨by simp_all [markApproved], rfl, rfl⟩⟩

/-- Success inversion for `approveMilestone`. -/
theorem approveMilestone_ok
    (h : approveMilestone s sender pid mid = .ok (s', tr)) :
    pid < s.projectCounter ∧ sender = (s.projects pid).client ∧
    s.locked = false ∧ s.paused = false ∧
    (s.projects pid).status = .ACTIVE ∧
    mid < (s.projectMilestones pid).length ∧
    ∃ m, (s.projectMilestones pid)[mid]? = some m ∧
      m.status = .SUBMITTED ∧
      releaseMilestonePayment s pid mid = .ok (s', tr) := by
  simp only [approveMilestone] at h
  repeat' split at h
  all_goals try exact (Except.noConfusion h)
  simp_all

/-- Success inversion for `autoApproveMilestone`. -/
theorem autoApproveMilestone_ok
    (h : autoApproveMilestone s sender now pid mid = .ok (s', tr)) :
    pid < s.projectCounter ∧ s.locked = false ∧ s.paused = false ∧
    (s.projects pid).status = .ACTIVE ∧
    mid < (s.projectMilestones pid).length ∧
    ∃ m, (s.projectMilestones pid)[mid]? = some m ∧
      m.status = .SUBMITTED ∧
      m.submittedAt + AUTO_APPROVE_TIMEOUT ≤ now ∧
      releaseMilestonePayment s pid mid = .ok (s', tr) := by
  simp only [autoApproveMilestone] at h
  repeat' split at h
  all_goals try exact (Except.noConfusion h)
  simp_all

/-- Success inversion for `raiseDispute`. -/
theorem raiseDispute_ok {reason : String} {ret : Nat}
    (h : raiseDispute s sender now pid mid reason = .ok (s', tr, ret)) :
    pid < s.projectCounter ∧
    (sender = (s.projects pid).client ∨
     sender = (s.projects pid).freelancer) ∧
    s.paused = false ∧ (s.projects pid).status = .ACTIVE ∧
    mid < (s.projectMilestones pid).length ∧
    ∃ m, (s.projectMilestones pid)[mid]? = some m ∧
      m.status = .SUBMITTED ∧ now ≤ m.submittedAt + DISPUTE_TIMEOUT ∧
      ret = s.disputeCounter ∧
      s' = { s with
               disputeCounter := s.disputeCounter + 1,
               disputes := setFn s.disputes s.disputeCounter
                 { s.disputes s.disputeCounter with
                     projectId := pid, milestoneId := mid,
                     initiator := sender, reason := reason,
                     isResolved := false, createdAt := now,
                     voteCount := 0 },
               projects := setFn s.projects pid
                 { s.projects pid with status := .DISPUTED },
               projectMilestones := setFn s.projectMilestones pid
                 ((s.projectMilestones pid).set mid
                   { m with status := .DISPUTED }) } ∧
      tr = [.setProjectStatus pid .DISPUTED,
            .setMilestoneStatus pid mid .DISPUTED] := by
  simp only [raiseDispute] at h
  repeat' split at h
  all_goals try exact (Except.noConfusion h)
  simp only [Except.ok.injEq, Prod.mk.injEq] at h
  obtain ⟨hs, ht, hr⟩ := h
  subst hs; subst ht; subst hr
  simp_all
  all_goals tauto

/-- Success inversion for `_executeDisputeResolution`. -/
theorem executeDisputeResolution_ok
    (h : executeDisputeResolution s did = .ok (s', tr)) :
    s.locked = false ∧ (s.disputes did).isResolved = false ∧
    ¬ disputeVoters s did = [] ∧
    ∃ m, (s.projectMilestones (s.disputes did).projectId)[
        (s.disputes did).milestoneId]? = some m ∧
      s' = { s with
               disputes := setFn s.disputes did
                 { s.disputes did with isResolved := true },
               projectMilestones := setFn s.projectMilestones
                 (s.disputes did).projectId
                 ((s.projectMilestones (s.disputes did).projectId).set
                   (s.disputes did).milestoneId
                   { m with status := .APPROVED }),
               projects := setFn s.projects (s.disputes did).projectId
                 { s.projects (s.disputes did).projectId with
                     status := .ACTIVE } } ∧
      tr = (if 0 < m.amount * disputeAvgPercent s did / 100 then
              [.transferValue
                (s.projects (s.disputes did).projectId).freelancer
                (m.amount * disputeAvgPercent s did / 100)] else []) ++
           (if 0 < m.amount - m.amount * disputeAvgPercent s did / 100 then
              [.transferValue (s.projects (s.disputes did).projectId).client
                (m.amount - m.amount * disputeAvgPercent s did / 100)]
            else []) ++
           [.setDisputeResolved did,
            .setMilestoneStatus (s.disputes did).projectId
              (s.disputes did).milestoneId .APPROVED,
            .setProjectStatus (s.disputes did).projectId .ACTIVE] := by
  simp only [executeDisputeResolution] at h
  split at h
  · exact (Except.noConfusion h)
  rename_i hlock
  split at h
  · exact (Except.noConfusion h)
  rename_i hres
  split at h
  · exact (Except.noConfusion h)
  rename_i hvv
  split at h
  · exact (Except.noConfusion h)
  rename_i m heq
  simp only [Except.ok.injEq, Prod.mk.injEq] at h
  obtain ⟨hs, ht⟩ := h
  subst hs; subst ht
  refine ⟨by simp_all, by simp_all, ?_, m, heq, rfl, ?_⟩
  · simpa [disputeVoters, List.length_eq_zero] using hvv
  · simp [disputeVoters, disputeAvgPercent]

/-- Success inversion for `voteOnDispute`. -/
theorem voteOnDispute_ok
    (h : voteOnDispute s sender did pct = .ok (s', tr)) :
    (s.isAdmin sender = true ∨ sender = s.owner) ∧ s.paused = false ∧
    did < s.disputeCounter ∧ (s.disputes did).isResolved = false ∧
    pct ≤ 100 ∧ (s.disputes did).hasVoted sender = false ∧
    ((¬ REQUIRED_ADMIN_VOTES ≤ (s.disputes did).voteCount + 1 ∧
      s' = withVote s sender did pct ∧
      tr = [.recordVote did sender pct]) ∨
     (REQUIRED_ADMIN_VOTES ≤ (s.disputes did).voteCount + 1 ∧
      ∃ tr2, executeDisputeResolution (withVote s sender did pct) did =
          .ok (s', tr2) ∧
        tr = .recordVote did sender pct :: tr2)) := by
  simp only [voteOnDispute] at h
  repeat' split at h
  all_goals try exact (Except.noConfusion h)
  all_goals
    simp only [Except.ok.injEq, Prod.mk.injEq] at h
  · next hq hexec =>
      obtain ⟨hs, ht⟩ := h
      subst hs; subst ht
      refine ⟨?_, ?_, ?_, ?_, ?_, ?_, Or.inr ⟨by simp_all [withVote], _, ?_, rfl⟩⟩
      all_goals simp_all [withVote]
      all_goals cases hb : s.isAdmin sender <;> simp_all
  · obtain ⟨hs, ht⟩ := h
    subst hs; subst ht
    refine ⟨?_, ?_, ?_, ?_, ?_, ?_, Or.inl ⟨by simp_all [withVote], rfl, rfl⟩⟩
    all_goals simp_all
    all_goals cases hb : s.isAdmin sender <;> simp_all

end OkInversion2

/-- The per-index validation loop accepts exactly when every amount is
positive and every deadline is strictly in the future. -/
theorem checkMilestoneInputs_eq_none {now : Nat} :
    ∀ (amounts deadlines : List Nat),
      amounts.length = deadlines.length →
      (checkMilestoneInputs now amounts deadlines = none ↔
        (∀ x ∈ amounts, 0 < x) ∧ (∀ d ∈ deadlines, now < d))
  | [], [] => by intro _; simp [checkMilestoneInputs]
  | [], _ :: _ => by intro hl; exact absurd hl (by simp)
  | _ :: _, [] => by intro hl; exact absurd hl (by simp)
  | a :: amounts, d :: deadlines => by
      intro hl
      have ih : checkMilestoneInputs now amounts deadlines = none ↔
          (∀ x ∈ amounts, 0 < x) ∧ (∀ d ∈ deadlines, now < d) :=
        checkMilestoneInputs_eq_none amounts deadlines (by simpa using hl)
      simp only [checkMilestoneInputs]
      split
      · next ha => simp_all
      · next ha =>
          split
          · next hd => simp_all
          · next hd =>
              simp only [List.mem_cons, forall_eq_or_imp]
              constructor
              · intro hnone
                obtain ⟨h1, h2⟩ := ih.mp hnone
                exact ⟨⟨by omega, h1⟩, by omega, h2⟩
              · intro ⟨⟨_, h1⟩, _, h2⟩
                exact ih.mpr ⟨h1, h2⟩

/-- Every error of the validation loop is a ValidationError. -/
theorem checkMilestoneInputs_some_kind {now : Nat} :
    ∀ (amounts deadlines : List Nat) (e : EscrowError),
      checkMilestoneInputs now amounts deadlines = some e →
      e.kind = .validation
  | [], _, e => by simp [checkMilestoneInputs]
  | a :: amounts, [], e => by
      simp only [checkMilestoneInputs]
      split
      · intro h; cases h; rfl
      · exact checkMilestoneInputs_some_kind amounts [] e
  | a :: amounts, d :: deadlines, e => by
      simp only [checkMilestoneInputs]
      split
      · intro h; cases h; rfl
      · split
        · intro h; cases h; rfl
        · exact checkMilestoneInputs_some_kind amounts deadlines e

section OkInversion3

variable {s s' : EscrowState} {sender : Address}
variable {value now : Nat} {tr : List Action}

/-- Success inversion for `createProject`. -/
theorem createProject_ok {title dhash : String} {descs : List String}
    {amounts deadlines : List Nat} {ret : Nat}
    (h : createProject s sender value now title dhash descs amounts
          deadlines = .ok (s', tr, ret)) :
    s.paused = false ∧ 0 < descs.length ∧
    descs.length = amounts.length ∧ amounts.length = deadlines.length ∧
    checkMilestoneInputs now amounts deadlines = none ∧
    amounts.sum ≤ value ∧ ret = s.projectCounter ∧
    s' = { s with
             projectCounter := s.projectCounter + 1,
             projects := setFn s.projects s.projectCounter
               { s.projects s.projectCounter with
                   id := s.projectCounter, client := sender,
                   title := title, descriptionHash := dhash,
                   totalAmount := amounts.sum, status := .CREATED,
                   createdAt := now, fundsDeposited := true },
             projectMilestones := setFn s.projectMilestones
               s.projectCounter
               (s.projectMilestones s.projectCounter ++
                 mkMilestones descs amounts deadlines),
             userProjects := setFn s.userProjects sender
               (s.userProjects sender ++ [s.projectCounter]) } ∧
    tr = (if amounts.sum < value then
            [.transferValue sender (value - amounts.sum)] else []) := by
  simp only [createProject] at h
  repeat' split at h
  all_goals try exact (Except.noConfusion h)
  all_goals simp only [Except.ok.injEq, Prod.mk.injEq] at h
  all_goals (obtain ⟨hs, ht, hr⟩ := h; subst hs; subst ht; subst hr)
  all_goals
    refine ⟨by simp_all, by tauto, by tauto, by tauto, by assumption,
      by tauto, rfl, rfl, by simp_all⟩

end OkInversion3

/-- Milestone lookup in a milestone table. -/
def msAt (f : Nat → List Milestone) (pid mid : Nat) : Option Milestone :=
  (f pid)[mid]?

/-- Lookup after overwriting one milestone slot. -/
theorem msAt_update (f : Nat → List Milestone) (pid0 mid0 : Nat)
    (m' : Milestone) (pid mid : Nat) :
    msAt (setFn f pid0 ((f pid0).set mid0 m')) pid mid =
      if pid = pid0 ∧ mid = mid0 ∧ mid0 < (f pid0).length then some m'
      else msAt f pid mid := by
  unfold msAt setFn
  by_cases hp : pid = pid0
  · subst hp
    rw [if_pos rfl, List.getElem?_set]
    by_cases hm : mid0 = mid
    · subst hm
      by_cases hl : mid0 < (f pid).length
      · simp [hl]
      · have hnone : (f pid)[mid0]? = none :=
          List.getElem?_eq_none (by omega)
        simp [hl, hnone]
    · have hms : ¬ (pid = pid ∧ mid = mid0 ∧ mid0 < (f pid).length) := by
        rintro ⟨_, h, _⟩; exact hm h.symm
      rw [if_neg hm, if_neg hms]
  · have hps : ¬ (pid = pid0 ∧ mid = mid0 ∧ mid0 < (f pid0).length) := by
      rintro ⟨h, _⟩; exact hp h
    rw [if_neg hp, if_neg hps]

/-- Lookup after appending to one project's milestone list. -/
theorem msAt_append (f : Nat → List Milestone) (pid0 : Nat)
    (new : List Milestone) (pid mid : Nat) (m : Milestone)
    (h : msAt f pid mid = some m) :
    msAt (setFn f pid0 (f pid0 ++ new)) pid mid = some m := by
  unfold msAt setFn at *
  by_cases hp : pid = pid0
  · subst hp
    rw [if_pos rfl, List.getElem?_append_left]
    · exact h
    · exact (List.getElem?_eq_some.mp h).1
  · simpa [hp] using h

/-- The milestone status transitions the specification allows. -/
def MAllowed (a b : MilestoneStatus) : Prop :=
  a = b ∨ (a = .PENDING ∧ b = .SUBMITTED) ∨
  (a = .SUBMITTED ∧ b = .APPROVED) ∨ (a = .SUBMITTED ∧ b = .DISPUTED) ∨
  (a = .DISPUTED ∧ b = .APPROVED)

/-- Every open dispute points at an existing milestone that is
DISPUTED. -/
def DisputeInv (s : EscrowState) : Prop :=
  ∀ did, did < s.disputeCounter → (s.disputes did).isResolved = false →
    ∃ m, msAt s.projectMilestones (s.disputes did).projectId
        (s.disputes did).milestoneId = some m ∧ m.status = .DISPUTED

/-- Two distinct open disputes never target the same milestone. -/
def DisputeSepInv (s : EscrowState) : Prop :=
  ∀ d1 d2, d1 < s.disputeCounter → d2 < s.disputeCounter → ¬ d1 = d2 →
    (s.disputes d1).isResolved = false →
    (s.disputes d2).isResolved = false →
    ¬ ((s.disputes d1).projectId = (s.disputes d2).projectId ∧
       (s.disputes d1).milestoneId = (s.disputes d2).milestoneId)

/-- The reachable-state invariant of the dispute subsystem. -/
def Inv (s : EscrowState) : Prop := DisputeInv s ∧ DisputeSepInv s

/-- Frame rule: an operation that preserves milestone entries and
leaves the dispute table untouched preserves the invariant. -/
theorem inv_frame {s s' : EscrowState}
    (hms : ∀ pid mid m, msAt s.projectMilestones pid mid = some m →
      msAt s'.projectMilestones pid mid = some m)
    (hd : s'.disputes = s.disputes)
    (hc : s'.disputeCounter = s.disputeCounter)
    (hinv : Inv s) : Inv s' := by
  obtain ⟨h1, h2⟩ := hinv
  constructor
  · intro did hdid hun
    rw [hc] at hdid
    rw [hd] at hun ⊢
    obtain ⟨m, hm, hst⟩ := h1 did hdid hun
    exact ⟨m, hms _ _ _ hm, hst⟩
  · intro d1 d2 h1' h2' hne hu1 hu2
    rw [hc] at h1' h2'
    rw [hd] at hu1 hu2 ⊢
    exact h2 d1 d2 h1' h2' hne hu1 hu2

/-- Updating one milestone whose previous status is not DISPUTED
preserves the invariant. -/
theorem inv_update_nondisputed {s s' : EscrowState} {pid0 mid0 : Nat}
    {m0 m' : Milestone}
    (hm0 : msAt s.projectMilestones pid0 mid0 = some m0)
    (hst : ¬ m0.status = .DISPUTED)
    (hms : s'.projectMilestones =
      setFn s.projectMilestones pid0
        ((s.projectMilestones pid0).set mid0 m'))
    (hd : s'.disputes = s.disputes)
    (hc : s'.disputeCounter = s.disputeCounter)
    (hinv : Inv s) : Inv s' := by
  obtain ⟨h1, h2⟩ := hinv
  constructor
  · intro did hdid hun
    rw [hc] at hdid
    rw [hd] at hun ⊢
    obtain ⟨m, hm, hmst⟩ := h1 did hdid hun
    refine ⟨m, ?_, hmst⟩
    rw [hms, msAt_update]
    rw [if_neg ?_]
    · exact hm
    · rintro ⟨hp, hq, _⟩
      rw [hp, hq] at hm
      rw [hm] at hm0
      cases hm0
      exact hst hmst
  · intro d1 d2 h1' h2' hne hu1 hu2
    rw [hc] at h1' h2'
    rw [hd] at hu1 hu2 ⊢
    exact h2 d1 d2 h1' h2' hne hu1 hu2

/-- `withVote` leaves the resolved flag of every dispute unchanged. -/
theorem withVote_isResolved (s : EscrowState) (sender : Address)
    (did pct d : Nat) :
    (((withVote s sender did pct).disputes d)).isResolved =
      (s.disputes d).isResolved := by
  unfold withVote setFn
  by_cases h : d = did <;> simp [h]

/-- `withVote` leaves the target project of every dispute unchanged. -/
theorem withVote_projectId (s : EscrowState) (sender : Address)
    (did pct d : Nat) :
    (((withVote s sender did pct).disputes d)).projectId =
      (s.disputes d).projectId := by
  unfold withVote setFn
  by_cases h : d = did <;> simp [h]

/-- `withVote` leaves the target milestone of every dispute
unchanged. -/
theorem withVote_milestoneId (s : EscrowState) (sender : Address)
    (did pct d : Nat) :
    (((withVote s sender did pct).disputes d)).milestoneId =
      (s.disputes d).milestoneId := by
  unfold withVote setFn
  by_cases h : d = did <;> simp [h]

/-- Recording a vote preserves the invariant. -/
theorem inv_withVote {s : EscrowState} {sender : Address} {did pct : Nat}
    (hinv : Inv s) : Inv (withVote s sender did pct) := by
  obtain ⟨h1, h2⟩ := hinv
  constructor
  · intro d hd hun
    rw [withVote_isResolved] at hun
    rw [withVote_projectId, withVote_milestoneId]
    exact h1 d hd hun
  · intro d1 d2 hd1 hd2 hne hu1 hu2
    rw [withVote_isResolved] at hu1 hu2
    rw [withVote_projectId, withVote_projectId, withVote_milestoneId,
      withVote_milestoneId]
    exact h2 d1 d2 hd1 hd2 hne hu1 hu2

/-- Executing a resolution on an existing dispute preserves the
invariant. -/
theorem inv_exec {s s' : EscrowState} {did : Nat} {tr : List Action}
    (hdid : did < s.disputeCounter)
    (h : executeDisputeResolution s did = .ok (s', tr))
    (hinv : Inv s) : Inv s' := by
  obtain ⟨hlock, hres, hvv, m, hm, hs, htr⟩ := executeDisputeResolution_ok h
  subst hs
  obtain ⟨h1, h2⟩ := hinv
  constructor
  · intro d hd hun
    by_cases e : d = did
    · subst e
      simp [setFn] at hun
    · simp only [setFn, if_neg e] at hun ⊢
      obtain ⟨md, hmd, hstd⟩ := h1 d hd hun
      refine ⟨md, ?_, hstd⟩
      rw [msAt_update, if_neg ?_]
      · exact hmd
      · rintro ⟨hp, hq, _⟩
        exact h2 did d hdid hd (fun he => e he.symm) hres hun
          ⟨hp.symm, hq.symm⟩
  · intro d1 d2 hd1 hd2 hne hu1 hu2
    by_cases e1 : d1 = did
    · subst e1; simp [setFn] at hu1
    · by_cases e2 : d2 = did
      · subst e2; simp [setFn] at hu2
      · simp only [setFn, if_neg e1, if_neg e2] at hu1 hu2 ⊢
        exact h2 d1 d2 hd1 hd2 hne hu1 hu2

/-- Raising a dispute preserves the invariant. -/
theorem inv_raiseDispute {s s' : EscrowState} {sender : Address}
    {now pid mid : Nat} {reason : String} {tr : List Action} {ret : Nat}
    (h : raiseDispute s sender now pid mid reason = .ok (s', tr, ret))
    (hinv : Inv s) : Inv s' := by
  obtain ⟨hpid, hpart, hpau, hact, hlen, m, hm, hsub, htim, hret, hs, htr⟩ :=
    raiseDispute_ok h
  subst hs
  obtain ⟨h1, h2⟩ := hinv
  have hself : ∀ d, d < s.disputeCounter →
      (s.disputes d).isResolved = false →
      ¬ ((s.disputes d).projectId = pid ∧
         (s.disputes d).milestoneId = mid) := by
    intro d hd hun ⟨hp, hq⟩
    obtain ⟨md, hmd, hstd⟩ := h1 d hd hun
    unfold msAt at hmd
    rw [hp, hq, hm] at hmd
    cases hmd
    rw [hsub] at hstd
    exact MilestoneStatus.noConfusion hstd
  constructor
  · intro d hd hun
    by_cases e : d = s.disputeCounter
    · subst e
      simp only [setFn, if_pos rfl] at hun ⊢
      refine ⟨{ m with status := .DISPUTED }, ?_, rfl⟩
      rw [msAt_update, if_pos ⟨rfl, rfl, hlen⟩]
    · have hd' : d < s.disputeCounter := by
        simp only at hd; omega
      simp only [setFn, if_neg e] at hun ⊢
      obtain ⟨md, hmd, hstd⟩ := h1 d hd' hun
      refine ⟨md, ?_, hstd⟩
      rw [msAt_update, if_neg ?_]
      · exact hmd
      · rintro ⟨hp, hq, _⟩
        exact hself d hd' hun ⟨hp, hq⟩
  · intro d1 d2 hd1 hd2 hne hu1 hu2
    by_cases e1 : d1 = s.disputeCounter
    · subst e1
      have hd2' : d2 < s.disputeCounter := by
        simp only at hd2
        rcases Nat.lt_succ_iff_lt_or_eq.mp hd2 with h' | h'
        · exact h'
        · exact absurd h'.symm hne
      simp only [setFn, if_pos rfl, if_neg (fun he => hne (Eq.symm he))]
        at hu1 hu2 ⊢
      rintro ⟨hp, hq⟩
      exact hself d2 hd2' hu2 ⟨hp.symm, hq.symm⟩
    · by_cases e2 : d2 = s.disputeCounter
      · subst e2
        have hd1' : d1 < s.disputeCounter := by
          simp only at hd1
          rcases Nat.lt_succ_iff_lt_or_eq.mp hd1 with h' | h'
          · exact h'
          · exact absurd h' e1
        simp only [setFn, if_pos rfl, if_neg e1] at hu1 hu2 ⊢
        rintro ⟨hp, hq⟩
        exact hself d1 hd1' hu1 ⟨hp, hq⟩
      · have hd1' : d1 < s.disputeCounter := by
          simp only at hd1
          rcases Nat.lt_succ_iff_lt_or_eq.mp hd1 with h' | h'
          · exact h'
          · exact absurd h' e1
        have hd2' : d2 < s.disputeCounter := by
          simp only at hd2
          rcases Nat.lt_succ_iff_lt_or_eq.mp hd2 with h' | h'
          · exact h'
          · exact absurd h' e2
        simp only [setFn, if_neg e1, if_neg e2] at hu1 hu2 ⊢
        exact h2 d1 d2 hd1' hd2' hne hu1 hu2

/-- Every successful public operation preserves the dispute
invariant. -/
theorem step_inv {s s' : EscrowState} {op : Op} {tr : List Action}
    (h : applyOp s op = .ok (s', tr)) (hinv : Inv s) : Inv s' := by
  cases op with
  | addAdmin sender a =>
      simp only [applyOp] at h
      obtain ⟨_, _, _, hs, _⟩ := addAdmin_ok h
      subst hs
      exact inv_frame (fun _ _ _ hm => hm) rfl rfl hinv
  | removeAdmin sender a =>
      simp only [applyOp] at h
      obtain ⟨_, _, _, hs, _⟩ := removeAdmin_ok h
      subst hs
      exact inv_frame (fun _ _ _ hm => hm) rfl rfl hinv
  | pause sender =>
      simp only [applyOp] at h
      obtain ⟨_, _, hs, _⟩ := pause_ok h
      subst hs
      exact inv_frame (fun _ _ _ hm => hm) rfl rfl hinv
  | unpause sender =>
      simp only [applyOp] at h
      obtain ⟨_, _, hs, _⟩ := unpause_ok h
      subst hs
      exact inv_frame (fun _ _ _ hm => hm) rfl rfl hinv
  | setPlatformFee sender feePercent =>
      simp only [applyOp] at h
      obtain ⟨_, _, hs, _⟩ := setPlatformFee_ok h
      subst hs
      exact inv_frame (fun _ _ _ hm => hm) rfl rfl hinv
  | rateUser sender user rating =>
      simp only [applyOp] at h
      obtain ⟨_, _, _, hs, _⟩ := rateUser_ok h
      subst hs
      exact inv_frame (fun _ _ _ hm => hm) rfl rfl hinv
  | acceptProject sender now pid =>
      simp only [applyOp] at h
      obtain ⟨_, _, _, _, _, hs, _⟩ := acceptProject_ok h
      subst hs
      exact inv_frame (fun _ _ _ hm => hm) rfl rfl hinv
  | cancelProject sender pid =>
      simp only [applyOp] at h
      obtain ⟨_, _, _, _, _, _, hs, _⟩ := cancelProject_ok h
      subst hs
      exact inv_frame (fun _ _ _ hm => hm) rfl rfl hinv
  | createProject sender value now t dh ds amounts deadlines =>
      simp only [applyOp] at h
      cases hcp : createProject s sender value now t dh ds amounts deadlines with
      | error e => rw [hcp] at h; exact Except.noConfusion h
      | ok r =>
          rw [hcp] at h
          obtain ⟨r1, r2, r3⟩ := r
          simp only [Except.map, Except.ok.injEq, Prod.mk.injEq] at h
          obtain ⟨hs, _⟩ := h
          subst hs
          obtain ⟨_, _, _, _, _, _, _, hs', _⟩ := createProject_ok hcp
          subst hs'
          exact inv_frame
            (fun pid mid m hm =>
              msAt_append s.projectMilestones s.projectCounter _ pid mid m hm)
            rfl rfl hinv
  | submitMilestone sender now pid mid dh =>
      simp only [applyOp] at h
      obtain ⟨_, _, _, _, _, m, hm, hpend, _, hs, _⟩ := submitMilestone_ok h
      subst hs
      refine inv_update_nondisputed hm ?_ rfl rfl rfl hinv
      rw [hpend]; simp
  | approveMilestone sender pid mid =>
      simp only [applyOp] at h
      obtain ⟨_, _, _, _, _, _, m0, hm0, hsub0, hrel⟩ := approveMilestone_ok h
      obtain ⟨m, hm, hcase⟩ := releaseMilestonePayment_ok hrel
      have hmm : m = m0 := by rw [hm] at hm0; cases hm0; rfl
      subst hmm
      rcases hcase with ⟨_, hs, _⟩ | ⟨_, hs, _⟩ <;> subst hs <;>
        refine inv_update_nondisputed hm ?_ rfl rfl rfl hinv <;>
        (rw [hsub0]; simp)
  | autoApproveMilestone sender now pid mid =>
      simp only [applyOp] at h
      obtain ⟨_, _, _, _, _, m0, hm0, hsub0, _, hrel⟩ :=
        autoApproveMilestone_ok h
      obtain ⟨m, hm, hcase⟩ := releaseMilestonePayment_ok hrel
      have hmm : m = m0 := by rw [hm] at hm0; cases hm0; rfl
      subst hmm
      rcases hcase with ⟨_, hs, _⟩ | ⟨_, hs, _⟩ <;> subst hs <;>
        refine inv_update_nondisputed hm ?_ rfl rfl rfl hinv <;>
        (rw [hsub0]; simp)
  | raiseDispute sender now pid mid reason =>
      simp only [applyOp] at h
      cases hrd : raiseDispute s sender now pid mid reason with
      | error e => rw [hrd] at h; exact Except.noConfusion h
      | ok r =>
          rw [hrd] at h
          obtain ⟨r1, r2, r3⟩ := r
          simp only [Except.map, Except.ok.injEq, Prod.mk.injEq] at h
          obtain ⟨hs, _⟩ := h
          subst hs
          exact inv_raiseDispute hrd hinv
  | voteOnDispute sender did pct =>
      simp only [applyOp] at h
      obtain ⟨_, _, hdid, _, _, _, hcase⟩ := voteOnDispute_ok h
      rcases hcase with ⟨_, hs, _⟩ | ⟨_, tr2, hexec, _⟩
      · subst hs
        exact inv_withVote hinv
      · exact inv_exec (s := withVote s sender did pct) hdid hexec
          (inv_withVote hinv)

/-- The deployment state satisfies the dispute invariant. -/
theorem inv_initialState (deployer : Address) : Inv (initialState deployer) := by
  constructor
  · intro d hd _
    exact absurd hd (Nat.not_lt_zero d)
  · intro d1 d2 hd1 _ _ _ _
    exact absurd hd1 (Nat.not_lt_zero d1)

/-- Every reachable state satisfies the dispute invariant. -/
theorem reachable_inv {dep : Address} {s : EscrowState}
    (h : Reachable dep s) : Inv s := by
  induction h with
  | init => exact inv_initialState dep
  | next _ hstep ih => exact step_inv hstep ih

/-- A preserved milestone entry makes a reflexive (allowed)
transition. -/
theorem mallowed_of_eq {m m' : Milestone} (h : some m = some m') :
    MAllowed m.status m'.status := by
  cases h; exact Or.inl rfl

/-- The milestone payment release only moves a SUBMITTED milestone to
APPROVED. -/
theorem mallowed_release {s s' : EscrowState} {p q : Nat}
    {tr : List Action} {m0 : Milestone}
    (hsub : m0.status = .SUBMITTED)
    (hm0 : (s.projectMilestones p)[q]? = some m0)
    (hrel : releaseMilestonePayment s p q = .ok (s', tr))
    {pid mid : Nat} {m m' : Milestone}
    (hm : msAt s.projectMilestones pid mid = some m)
    (hm' : msAt s'.projectMilestones pid mid = some m') :
    MAllowed m.status m'.status := by
  obtain ⟨m2, hm2, hcase⟩ := releaseMilestonePayment_ok hrel
  have hmm : m2 = m0 := by rw [hm2] at hm0; cases hm0; rfl
  subst hmm
  have hproj : s'.projectMilestones =
      setFn s.projectMilestones p ((s.projectMilestones p).set q
        { m2 with status := .APPROVED }) := by
    rcases hcase with ⟨_, hs, _⟩ | ⟨_, hs, _⟩ <;> subst hs <;> rfl
  rw [hproj, msAt_update] at hm'
  by_cases hc : pid = p ∧ mid = q ∧ q < (s.projectMilestones p).length
  · rw [if_pos hc] at hm'
    cases hm'
    obtain ⟨hp, hq, _⟩ := hc
    subst hp; subst hq
    have : m = m2 := by
      unfold msAt at hm
      rw [hm2] at hm
      cases hm; rfl
    subst this
    exact Or.inr (Or.inr (Or.inl ⟨hsub, rfl⟩))
  · rw [if_neg hc] at hm'
    exact mallowed_of_eq (hm.symm.trans hm')

/-- Any milestone status change performed by a successful public
operation on an invariant-satisfying state follows the allowed status
machine. -/
theorem step_mallowed {s s' : EscrowState} {op : Op} {tr : List Action}
    (hinv : Inv s) (h : applyOp s op = .ok (s', tr))
    {pid mid : Nat} {m m' : Milestone}
    (hm : msAt s.projectMilestones pid mid = some m)
    (hm' : msAt s'.projectMilestones pid mid = some m') :
    MAllowed m.status m'.status := by
  cases op with
  | addAdmin sender a =>
      simp only [applyOp] at h
      obtain ⟨_, _, _, hs, _⟩ := addAdmin_ok h
      subst hs
      exact mallowed_of_eq (hm.symm.trans hm')
  | removeAdmin sender a =>
      simp only [applyOp] at h
      obtain ⟨_, _, _, hs, _⟩ := removeAdmin_ok h
      subst hs
      exact mallowed_of_eq (hm.symm.trans hm')
  | pause sender =>
      simp only [applyOp] at h
      obtain ⟨_, _, hs, _⟩ := pause_ok h
      subst hs
      exact mallowed_of_eq (hm.symm.trans hm')
  | unpause sender =>
      simp only [applyOp] at h
      obtain ⟨_, _, hs, _⟩ := unpause_ok h
      subst hs
      exact mallowed_of_eq (hm.symm.trans hm')
  | setPlatformFee sender feePercent =>
      simp only [applyOp] at h
      obtain ⟨_, _, hs, _⟩ := setPlatformFee_ok h
      subst hs
      exact mallowed_of_eq (hm.symm.trans hm')
  | rateUser sender user rating =>
      simp only [applyOp] at h
      obtain ⟨_, _, _, hs, _⟩ := rateUser_ok h
      subst hs
      exact mallowed_of_eq (hm.symm.trans hm')
  | acceptProject sender now p =>
      simp only [applyOp] at h
      obtain ⟨_, _, _, _, _, hs, _⟩ := acceptProject_ok h
      subst hs
      exact mallowed_of_eq (hm.symm.trans hm')
  | cancelProject sender p =>
      simp only [applyOp] at h
      obtain ⟨_, _, _, _, _, _, hs, _⟩ := cancelProject_ok h
      subst hs
      exact mallowed_of_eq (hm.symm.trans hm')
  | createProject sender value now t dh ds amounts deadlines =>
      simp only [applyOp] at h
      cases hcp : createProject s sender value now t dh ds amounts deadlines with
      | error e => rw [hcp] at h; exact Except.noConfusion h
      | ok r =>
          rw [hcp] at h
          obtain ⟨r1, r2, r3⟩ := r
          simp only [Except.map, Except.ok.injEq, Prod.mk.injEq] at h
          obtain ⟨hs, _⟩ := h
          subst hs
          obtain ⟨_, _, _, _, _, _, _, hs', _⟩ := createProject_ok hcp
          subst hs'
          have := msAt_append s.projectMilestones s.projectCounter
            (mkMilestones ds amounts deadlines) pid mid m hm
          exact mallowed_of_eq (this.symm.trans hm')
  | submitMilestone sender now p q dh =>
      simp only [applyOp] at h
      obtain ⟨_, _, _, _, hlen, m0, hm0, hpend, _, hs, _⟩ :=
        submitMilestone_ok h
      subst hs
      rw [msAt_update] at hm'
      by_cases hc : pid = p ∧ mid = q ∧ q < (s.projectMilestones p).length
      · rw [if_pos hc] at hm'
        cases hm'
        obtain ⟨hp, hq, _⟩ := hc
        subst hp; subst hq
        have : m = m0 := by
          unfold msAt at hm
          rw [hm0] at hm
          cases hm; rfl
        subst this
        exact Or.inr (Or.inl ⟨hpend, rfl⟩)
      · rw [if_neg hc] at hm'
        exact mallowed_of_eq (hm.symm.trans hm')
  | approveMilestone sender p q =>
      simp only [applyOp] at h
      obtain ⟨_, _, _, _, _, _, m1, hm1, hsub1, hrel⟩ := approveMilestone_ok h
      exact mallowed_release hsub1 hm1 hrel hm hm'
  | autoApproveMilestone sender now p q =>
      simp only [applyOp] at h
      obtain ⟨_, _, _, _, _, m1, hm1, hsub1, _, hrel⟩ :=
        autoApproveMilestone_ok h
      exact mallowed_release hsub1 hm1 hrel hm hm'
  | raiseDispute sender now p q reason =>
      simp only [applyOp] at h
      cases hrd : raiseDispute s sender now p q reason with
      | error e => rw [hrd] at h; exact Except.noConfusion h
      | ok r =>
          rw [hrd] at h
          obtain ⟨r1, r2, r3⟩ := r
          simp only [Except.map, Except.ok.injEq, Prod.mk.injEq] at h
          obtain ⟨hs, _⟩ := h
          subst hs
          obtain ⟨_, _, _, _, hlen, m0, hm0, hsub, _, _, hs', _⟩ :=
            raiseDispute_ok hrd
          subst hs'
          rw [msAt_update] at hm'
          by_cases hc : pid = p ∧ mid = q ∧ q < (s.projectMilestones p).length
          · rw [if_pos hc] at hm'
            cases hm'
            obtain ⟨hp, hq, _⟩ := hc
            subst hp; subst hq
            have : m = m0 := by
              unfold msAt at hm
              rw [hm0] at hm
              cases hm; rfl
            subst this
            exact Or.inr (Or.inr (Or.inr (Or.inl ⟨hsub, rfl⟩)))
          · rw [if_neg hc] at hm'
            exact mallowed_of_eq (hm.symm.trans hm')
  | voteOnDispute sender did pct =>
      simp only [applyOp] at h
      obtain ⟨_, _, hdid, hunres, _, _, hcase⟩ := voteOnDispute_ok h
      rcases hcase with ⟨_, hs, _⟩ | ⟨_, tr2, hexec, _⟩
      · subst hs
        exact mallowed_of_eq (hm.symm.trans hm')
      · obtain ⟨hlock, hres1, hvv, mE, hmE, hs', htr⟩ :=
          executeDisputeResolution_ok hexec
        subst hs'
        have hpd := withVote_projectId s sender did pct did
        have hmd := withVote_milestoneId s sender did pct did
        obtain ⟨h1, _⟩ := hinv
        obtain ⟨mD, hmD, hstD⟩ := h1 did hdid hunres
        have hmE' : msAt s.projectMilestones (s.disputes did).projectId
            (s.disputes did).milestoneId = some mE := by
          unfold msAt
          rw [← hpd, ← hmd]
          exact hmE
        have hDE : mD = mE := by rw [hmE'] at hmD; cases hmD; rfl
        subst hDE
        rw [msAt_update] at hm'
        rw [show (withVote s sender did pct).projectMilestones =
              s.projectMilestones from rfl] at hm'
        rw [hpd, hmd] at hm'
        by_cases hc : pid = (s.disputes did).projectId ∧
            mid = (s.disputes did).milestoneId ∧
            (s.disputes did).milestoneId <
              (s.projectMilestones (s.disputes did).projectId).length
        · rw [if_pos hc] at hm'
          cases hm'
          obtain ⟨hp, hq, _⟩ := hc
          subst hp; subst hq
          have : m = mD := by
            rw [hmE'] at hm
            cases hm; rfl
          subst this
          exact Or.inr (Or.inr (Or.inr (Or.inr ⟨hstD, rfl⟩)))
        · rw [if_neg hc] at hm'
          exact mallowed_of_eq (hm.symm.trans hm')

/-- Swap-remove from a roster of more than one member leaves it
non-empty. -/
theorem swapRemove_ne_nil {l : List Address} {a : Address}
    (h : 1 < l.length) : ¬ swapRemove l a = [] := by
  unfold swapRemove
  cases hf : l.findIdx? (· = a) with
  | none =>
      intro hnil
      have hnil' : l = [] := hnil
      rw [hnil'] at h
      simp at h
  | some i =>
      intro hnil
      have hnil' : (l.set i (l.getLastD 0)).dropLast = [] := hnil
      have hlen : ((l.set i (l.getLastD 0)).dropLast).length = 0 := by
        rw [hnil']; rfl
      rw [List.length_dropLast, List.length_set] at hlen
      omega

/-- Every successful public operation keeps the admin roster
non-empty. -/
theorem step_adminList_ne_nil {s s' : EscrowState} {op : Op}
    {tr : List Action} (h : applyOp s op = .ok (s', tr))
    (hne : ¬ s.adminList = []) : ¬ s'.adminList = [] := by
  cases op with
  | addAdmin sender a =>
      simp only [applyOp] at h
      obtain ⟨_, _, _, hs, _⟩ := addAdmin_ok h
      subst hs
      simp
  | removeAdmin sender a =>
      simp only [applyOp] at h
      obtain ⟨_, _, hlen, hs, _⟩ := removeAdmin_ok h
      subst hs
      exact swapRemove_ne_nil hlen
  | pause sender =>
      simp only [applyOp] at h
      obtain ⟨_, _, hs, _⟩ := pause_ok h
      subst hs; exact hne
  | unpause sender =>
      simp only [applyOp] at h
      obtain ⟨_, _, hs, _⟩ := unpause_ok h
      subst hs; exact hne
  | setPlatformFee sender feePercent =>
      simp only [applyOp] at h
      obtain ⟨_, _, hs, _⟩ := setPlatformFee_ok h
      subst hs; exact hne
  | rateUser sender user rating =>
      simp only [applyOp] at h
      obtain ⟨_, _, _, hs, _⟩ := rateUser_ok h
      subst hs; exact hne
  | acceptProject sender now pid =>
      simp only [applyOp] at h
      obtain ⟨_, _, _, _, _, hs, _⟩ := acceptProject_ok h
      subst hs; exact hne
  | cancelProject sender pid =>
      simp only [applyOp] at h
      obtain ⟨_, _, _, _, _, _, hs, _⟩ := cancelProject_ok h
      subst hs; exact hne
  | createProject sender value now t dh ds amounts deadlines =>
      simp only [applyOp] at h
      cases hcp : createProject s sender value now t dh ds amounts deadlines with
      | error e => rw [hcp] at h; exact Except.noConfusion h
      | ok r =>
          rw [hcp] at h
          obtain ⟨r1, r2, r3⟩ := r
          simp only [Except.map, Except.ok.injEq, Prod.mk.injEq] at h
          obtain ⟨hs, _⟩ := h
          subst hs
          obtain ⟨_, _, _, _, _, _, _, hs', _⟩ := createProject_ok hcp
          subst hs'; exact hne
  | submitMilestone sender now pid mid dh =>
      simp only [applyOp] at h
      obtain ⟨_, _, _, _, _, m, _, _, _, hs, _⟩ := submitMilestone_ok h
      subst hs; exact hne
  | approveMilestone sender pid mid =>
      simp only [applyOp] at h
      obtain ⟨_, _, _, _, _, _, m0, _, _, hrel⟩ := approveMilestone_ok h
      obtain ⟨m, _, hcase⟩ := releaseMilestonePayment_ok hrel
      rcases hcase with ⟨_, hs, _⟩ | ⟨_, hs, _⟩ <;> subst hs <;> exact hne
  | autoApproveMilestone sender now pid mid =>
      simp only [applyOp] at h
      obtain ⟨_, _, _, _, _, m0, _, _, _, hrel⟩ := autoApproveMilestone_ok h
      obtain ⟨m, _, hcase⟩ := releaseMilestonePayment_ok hrel
      rcases hcase with ⟨_, hs, _⟩ | ⟨_, hs, _⟩ <;> subst hs <;> exact hne
  | raiseDispute sender now pid mid reason =>
      simp only [applyOp] at h
      cases hrd : raiseDispute s sender now pid mid reason with
      | error e => rw [hrd] at h; exact Except.noConfusion h
      | ok r =>
          rw [hrd] at h
          obtain ⟨r1, r2, r3⟩ := r
          simp only [Except.map, Except.ok.injEq, Prod.mk.injEq] at h
          obtain ⟨hs, _⟩ := h
          subst hs
          obtain ⟨_, _, _, _, _, m, _, _, _, _, hs', _⟩ := raiseDispute_ok hrd
          subst hs'; exact hne
  | voteOnDispute sender did pct =>
      simp only [applyOp] at h
      obtain ⟨_, _, hdid, _, _, _, hcase⟩ := voteOnDispute_ok h
      rcases hcase with ⟨_, hs, _⟩ | ⟨_, tr2, hexec, _⟩
      · subst hs; exact hne
      · obtain ⟨_, _, _, m, _, hs', _⟩ := executeDisputeResolution_ok hexec
        subst hs'; exact hne

/-- Every reachable state has a non-empty admin roster. -/
theorem reachable_adminList_ne_nil {dep : Address} {s : EscrowState}
    (h : Reachable dep s) : ¬ s.adminList = [] := by
  induction h with
  | init => simp [initialState]
  | next _ hstep ih => exact step_adminList_ne_nil hstep ih

/-- All milestones produced at project creation are PENDING. -/
theorem mkMilestones_status :
    ∀ {descs : List String} {amounts deadlines : List Nat},
      ∀ m ∈ mkMilestones descs amounts deadlines, m.status = .PENDING := by
  intro descs
  induction descs with
  | nil => intro amounts deadlines m hm; simp [mkMilestones] at hm
  | cons d ds ih =>
      intro amounts deadlines m hm
      cases amounts with
      | nil => simp [mkMilestones] at hm
      | cons a as =>
          cases deadlines with
          | nil => simp [mkMilestones] at hm
          | cons dl dls =>
              simp only [mkMilestones, List.mem_cons] at hm
              rcases hm with hm | hm
              · subst hm; rfl
              · exact ih m hm

/-- A trace observes the checks-effects-interactions ordering when no
state commit follows any value transfer. -/
def mutationsBeforeTransfers : List Action → Bool
  | [] => true
  | .transferValue _ _ :: rest =>
      rest.all (fun act =>
        match act with
        | .transferValue _ _ => true
        | _ => false)
  | _ :: rest => mutationsBeforeTransfers rest

/-- `demoState` with accumulated ratings: user 4 has two ratings
totalling 7. -/
def ratedState : EscrowState :=
  { demoState with
      userRatings := setFn (fun _ => 0) 4 7
    , userRatingCount := setFn (fun _ => 0) 4 2 }

/-- `demoState` with the pause switch active. -/
def pausedState : EscrowState := { demoState with paused := true }

/-- `disputedState` whose dispute already carries the two quorum votes
(admin 9 voted 60, admin 5 voted 40). -/
def votedState : EscrowState :=
  { disputedState with
      disputes := setFn (fun _ => Dispute.zero) 0
        { Dispute.zero with
            projectId := 0, milestoneId := 0, initiator := 1,
            reason := "r", createdAt := 12,
            hasVoted := setFn (setFn (fun _ => false) 9 true) 5 true,
            votes := setFn (setFn (fun _ => 0) 9 60) 5 40,
            voteCount := 2 } }

/-- `disputedState` whose dispute is already resolved. -/
def resolvedState : EscrowState :=
  { disputedState with
      disputes := setFn (fun _ => Dispute.zero) 0
        { Dispute.zero with
            projectId := 0, milestoneId := 0, initiator := 1,
            reason := "r", createdAt := 12, isResolved := true } }

/-- C10: `getUserRating` returns 0 for an address with no recorded
ratings instead of dividing, and the floor average of total points over
the rating count otherwise, so the read is total and never divides by
zero. -/
theorem getUserRating_total (s : EscrowState) (user : Address) :
    (s.userRatingCount user = 0 → getUserRating s user = 0) ∧
    (¬ s.userRatingCount user = 0 →
      getUserRating s user =
        s.userRatings user / s.userRatingCount user) := by
  constructor <;> intro h <;> simp [getUserRating, h]

/-- Witness for C10 at a concrete state: address 8 has no ratings and
reads 0; address 4 has 7 points over 2 ratings and reads 3. -/
theorem getUserRating_total_witness :
    getUserRating ratedState 8 = 0 ∧ getUserRating ratedState 4 = 3 :=
  ⟨(getUserRating_total ratedState 8).1 rfl,
   (getUserRating_total ratedState 4).2 (by decide)⟩

/-- C2: every milestone released manually or by auto-approval pays the
payee `amount - fee` and the owner `fee = floor(amount * feePercent /
100)`, in that order, and the two payouts reconstruct the milestone
amount exactly. -/
theorem release_fee_split (s s' : EscrowState) (sender : Address)
    (now pid mid : Nat) (tr : List Action) (m : Milestone)
    (hfee : s.platformFeePercent ≤ 100)
    (hm : (s.projectMilestones pid)[mid]? = some m)
    (h : approveMilestone s sender pid mid = .ok (s', tr) ∨
         autoApproveMilestone s sender now pid mid = .ok (s', tr)) :
    ∃ rest,
      tr = .setMilestoneStatus pid mid .APPROVED ::
           .transferValue (s.projects pid).freelancer
             (m.amount - m.amount * s.platformFeePercent / 100) ::
           .transferValue s.owner
             (m.amount * s.platformFeePercent / 100) :: rest ∧
      m.amount * s.platformFeePercent / 100 ≤ m.amount ∧
      m.amount * s.platformFeePercent / 100 +
        (m.amount - m.amount * s.platformFeePercent / 100) = m.amount := by
  have hrel : releaseMilestonePayment s pid mid = .ok (s', tr) := by
    rcases h with h | h
    · obtain ⟨_, _, _, _, _, _, m1, _, _, hrel⟩ := approveMilestone_ok h
      exact hrel
    · obtain ⟨_, _, _, _, _, m1, _, _, _, hrel⟩ := autoApproveMilestone_ok h
      exact hrel
  obtain ⟨m2, hm2, hcase⟩ := releaseMilestonePayment_ok hrel
  have hmm : m2 = m := by rw [hm2] at hm; cases hm; rfl
  subst hmm
  have hle : m2.amount * s.platformFeePercent / 100 ≤ m2.amount := by
    have h1 : m2.amount * s.platformFeePercent ≤ m2.amount * 100 :=
      Nat.mul_le_mul_left _ hfee
    omega
  rcases hcase with ⟨_, _, htr⟩ | ⟨_, _, htr⟩
  · exact ⟨[.setProjectStatus pid .COMPLETED], by rw [htr], hle, by omega⟩
  · exact ⟨[], by rw [htr], hle, by omega⟩

/-- Witness for C2 on `demoState`: approving the 100-unit milestone at
a 2 percent fee pays the freelancer 98 and the owner 2. -/
theorem release_fee_split_witness :
    ∃ rest, resTrace (approveMilestone demoState 1 0 0) =
        Action.setMilestoneStatus 0 0 .APPROVED ::
        Action.transferValue 2 98 :: Action.transferValue 9 2 :: rest ∧
      (2 : Nat) ≤ 100 ∧ 2 + 98 = 100 :=
  release_fee_split demoState
    (resState demoState (approveMilestone demoState 1 0 0)) 1 0 0 0
    (resTrace (approveMilestone demoState 1 0 0)) baseMilestone
    (by decide) rfl (Or.inl rfl)

/-- C6: once a dispute resolution executes, the dispute is resolved,
the disputed milestone is APPROVED, and the project status is set back
to ACTIVE — never to COMPLETED, even when every milestone (including
the disputed one) is now APPROVED. -/
theorem dispute_resolution_final_state (s s' : EscrowState) (did : Nat)
    (tr : List Action)
    (h : executeDisputeResolution s did = .ok (s', tr)) :
    (s'.disputes did).isResolved = true ∧
    (∃ m, milestoneAt s' (s.disputes did).projectId
        (s.disputes did).milestoneId = some m ∧ m.status = .APPROVED) ∧
    (s'.projects (s.disputes did).projectId).status = .ACTIVE ∧
    ¬ (s'.projects (s.disputes did).projectId).status = .COMPLETED := by
  obtain ⟨_, _, _, m, hm, hs, _⟩ := executeDisputeResolution_ok h
  subst hs
  refine ⟨by simp [setFn], ?_, by simp [setFn], by simp [setFn]⟩
  refine ⟨{ m with status := .APPROVED }, ?_, rfl⟩
  show msAt _ _ _ = _
  rw [msAt_update, if_pos ⟨rfl, rfl, (List.getElem?_eq_some.mp hm).1⟩]

/-- Witness for C6 on `votedState`: executing the resolution of dispute
0 resolves it, approves milestone 0 (the project's only milestone), and
leaves the project ACTIVE. -/
theorem dispute_resolution_final_state_witness :
    ((resState votedState
        (executeDisputeResolution votedState 0)).disputes 0).isResolved
        = true ∧
    (∃ m, milestoneAt
        (resState votedState (executeDisputeResolution votedState 0)) 0 0 =
          some m ∧ m.status = .APPROVED) ∧
    ((resState votedState
        (executeDisputeResolution votedState 0)).projects 0).status
        = .ACTIVE ∧
    ¬ ((resState votedState
        (executeDisputeResolution votedState 0)).projects 0).status
        = .COMPLETED :=
  dispute_resolution_final_state votedState
    (resState votedState (executeDisputeResolution votedState 0)) 0
    (resTrace (executeDisputeResolution votedState 0)) rfl

/-- C7: auto-approval succeeds for any caller exactly when the project
is ACTIVE, the milestone is SUBMITTED and the 7-day window has elapsed,
fails with a TimeoutError before that instant, and on success its
result (state and trace) is identical to the client's manual
approval. -/
theorem autoApprove_refines_manual (s : EscrowState) (sender : Address)
    (now pid mid : Nat) (m : Milestone)
    (hpid : pid < s.projectCounter) (hlock : s.locked = false)
    (hpau : s.paused = false)
    (hlen : mid < (s.projectMilestones pid).length)
    (hm : (s.projectMilestones pid)[mid]? = some m) :
    ((∃ out, autoApproveMilestone s sender now pid mid = .ok out) ↔
      ((s.projects pid).status = .ACTIVE ∧ m.status = .SUBMITTED ∧
        m.submittedAt + AUTO_APPROVE_TIMEOUT ≤ now)) ∧
    ((s.projects pid).status = .ACTIVE → m.status = .SUBMITTED →
      now < m.submittedAt + AUTO_APPROVE_TIMEOUT →
      autoApproveMilestone s sender now pid mid =
        .error ⟨.timeout, "Auto-approval timeout not reached"⟩) ∧
    (∀ out, autoApproveMilestone s sender now pid mid = .ok out →
      approveMilestone s (s.projects pid).client pid mid = .ok out) := by
  refine ⟨⟨?_, ?_⟩, ?_, ?_⟩
  · rintro ⟨⟨o1, o2⟩, hout⟩
    obtain ⟨_, _, _, hact, _, m1, hm1, hsub, htime, _⟩ :=
      autoApproveMilestone_ok hout
    have hmm : m1 = m := by rw [hm1] at hm; cases hm; rfl
    subst hmm
    exact ⟨hact, hsub, htime⟩
  · rintro ⟨hact, hsub, htime⟩
    cases hres : autoApproveMilestone s sender now pid mid with
    | ok r => exact ⟨r, rfl⟩
    | error e =>
        simp [autoApproveMilestone, hpid, hlock, hpau, hact, hlen, hm,
          hsub, htime, releaseMilestonePayment] at hres
        split at hres <;> exact Except.noConfusion hres
  · intro hact hsub htime
    have hnt : ¬ m.submittedAt + AUTO_APPROVE_TIMEOUT ≤ now := by omega
    simp [autoApproveMilestone, hpid, hlock, hpau, hact, hlen, hm, hsub,
      hnt]
  · rintro ⟨o1, o2⟩ hout
    obtain ⟨_, _, _, hact, hlen', m1, hm1, hsub, htime, hrel⟩ :=
      autoApproveMilestone_ok hout
    have hmm : m1 = m := by rw [hm1] at hm; cases hm; rfl
    subst hmm
    simp only [approveMilestone]
    rw [if_neg (by simp [hpid]), if_neg (by simp), if_neg (by simp [hlock]),
      if_neg (by simp [hpau]), if_neg (by simp [hact]),
      if_neg (by simp [hlen']), hm1]
    simp only [hsub]
    rw [if_neg (by simp)]
    exact hrel

/-- Witness for C7 on `demoState` with an arbitrary caller (address 77)
exactly at the end of the 7-day window. -/
theorem autoApprove_refines_manual_witness :
    ((∃ out, autoApproveMilestone demoState 77 (10 + 7 * 86400) 0 0 =
        .ok out) ↔
      ((demoState.projects 0).status = .ACTIVE ∧
        baseMilestone.status = .SUBMITTED ∧
        baseMilestone.submittedAt + AUTO_APPROVE_TIMEOUT ≤
          10 + 7 * 86400)) ∧
    ((demoState.projects 0).status = .ACTIVE →
      baseMilestone.status = .SUBMITTED →
      10 + 7 * 86400 < baseMilestone.submittedAt + AUTO_APPROVE_TIMEOUT →
      autoApproveMilestone demoState 77 (10 + 7 * 86400) 0 0 =
        .error ⟨.timeout, "Auto-approval timeout not reached"⟩) ∧
    (∀ out, autoApproveMilestone demoState 77 (10 + 7 * 86400) 0 0 =
        .ok out →
      approveMilestone demoState (demoState.projects 0).client 0 0 =
        .ok out) :=
  autoApprove_refines_manual demoState 77 (10 + 7 * 86400) 0 0
    baseMilestone (by decide) rfl rfl (by decide) rfl

/-- C8: when not paused, project creation succeeds exactly when the
milestone arrays are non-empty and of equal length, every amount is
positive, every deadline is strictly in the future and the deposit
covers the total; any failure is a ValidationError; on success the
project is CREATED with `totalAmount` the sum of the amounts,
`fundsDeposited` set, all milestones PENDING, and the surplus deposit
refunded to the caller. -/
theorem createProject_spec (s : EscrowState) (sender : Address)
    (value now : Nat) (title dhash : String) (descs : List String)
    (amounts deadlines : List Nat) (hpau : s.paused = false) :
    ((∃ out, createProject s sender value now title dhash descs amounts
        deadlines = .ok out) ↔
      (0 < descs.length ∧ descs.length = amounts.length ∧
        amounts.length = deadlines.length ∧ (∀ a ∈ amounts, 0 < a) ∧
        (∀ d ∈ deadlines, now < d) ∧ amounts.sum ≤ value)) ∧
    (∀ e, createProject s sender value now title dhash descs amounts
        deadlines = .error e → e.kind = .validation) ∧
    (∀ s' tr ret, createProject s sender value now title dhash descs
        amounts deadlines = .ok (s', tr, ret) →
      ret = s.projectCounter ∧ s'.projectCounter = s.projectCounter + 1 ∧
      (s'.projects ret).status = .CREATED ∧
      (s'.projects ret).totalAmount = amounts.sum ∧
      (s'.projects ret).fundsDeposited = true ∧
      s'.projectMilestones ret =
        s.projectMilestones ret ++ mkMilestones descs amounts deadlines ∧
      (∀ m ∈ mkMilestones descs amounts deadlines, m.status = .PENDING) ∧
      tr = (if amounts.sum < value then
        [.transferValue sender (value - amounts.sum)] else [])) := by
  refine ⟨⟨?_, ?_⟩, ?_, ?_⟩
  · rintro ⟨⟨o1, o2, o3⟩, hout⟩
    obtain ⟨_, h1, h2, h3, hc, h6, _⟩ := createProject_ok hout
    obtain ⟨h4, h5⟩ :=
      (checkMilestoneInputs_eq_none amounts deadlines h3).mp hc
    exact ⟨h1, h2, h3, h4, h5, h6⟩
  · rintro ⟨h1, h2, h3, h4, h5, h6⟩
    have hc : checkMilestoneInputs now amounts deadlines = none :=
      (checkMilestoneInputs_eq_none amounts deadlines h3).mpr ⟨h4, h5⟩
    have hdne : ¬ deadlines = [] := by
      intro hnil
      rw [hnil] at h3
      simp only [List.length_nil] at h3
      rw [h3] at h2
      omega
    cases hres : createProject s sender value now title dhash descs
        amounts deadlines with
    | ok r => exact ⟨r, rfl⟩
    | error e =>
        exfalso
        simp [createProject, hpau, h1, h2, h3, hc, h6, hdne,
          Nat.not_lt.mpr h6] at hres
  · intro e he
    simp only [createProject] at he
    repeat' split at he
    all_goals try exact (Except.noConfusion he)
    all_goals injection he with he'
    all_goals subst he'
    all_goals
      first
        | exact checkMilestoneInputs_some_kind amounts deadlines _
            (by assumption)
        | simp_all
  · intro s' tr ret hout
    obtain ⟨_, _, _, _, _, _, hret, hs', htr⟩ := createProject_ok hout
    subst hret; subst hs'
    refine ⟨rfl, rfl, ?_, ?_, ?_, ?_, mkMilestones_status, htr⟩
    all_goals simp [setFn]

/-- Witness for C8: a two-milestone project funded with a surplus of
50 on `demoState`. -/
theorem createProject_spec_witness :
    ((∃ out, createProject demoState 3 150 20 "t" "d" ["a", "b"]
        [60, 40] [100, 200] = .ok out) ↔
      (0 < (["a", "b"] : List String).length ∧
        (["a", "b"] : List String).length =
          ([60, 40] : List Nat).length ∧
        ([60, 40] : List Nat).length = ([100, 200] : List Nat).length ∧
        (∀ a ∈ ([60, 40] : List Nat), 0 < a) ∧
        (∀ d ∈ ([100, 200] : List Nat), 20 < d) ∧
        ([60, 40] : List Nat).sum ≤ 150)) ∧
    (∀ e, createProject demoState 3 150 20 "t" "d" ["a", "b"]
        [60, 40] [100, 200] = .error e → e.kind = .validation) ∧
    (∀ s' tr ret, createProject demoState 3 150 20 "t" "d" ["a", "b"]
        [60, 40] [100, 200] = .ok (s', tr, ret) →
      ret = demoState.projectCounter ∧
      s'.projectCounter = demoState.projectCounter + 1 ∧
      (s'.projects ret).status = .CREATED ∧
      (s'.projects ret).totalAmount = ([60, 40] : List Nat).sum ∧
      (s'.projects ret).fundsDeposited = true ∧
      s'.projectMilestones ret =
        demoState.projectMilestones ret ++
          mkMilestones ["a", "b"] [60, 40] [100, 200] ∧
      (∀ m ∈ mkMilestones ["a", "b"] [60, 40] [100, 200],
        m.status = .PENDING) ∧
      tr = (if ([60, 40] : List Nat).sum < 150 then
        [.transferValue 3 (150 - ([60, 40] : List Nat).sum)] else [])) :=
  createProject_spec demoState 3 150 20 "t" "d" ["a", "b"] [60, 40]
    [100, 200] rfl

/-- `initialState 9` after the owner adds admin 5. -/
def rosterStateA : EscrowState :=
  resState (initialState 9) (applyOp (initialState 9) (.addAdmin 9 5))

/-- `rosterStateA` after the owner removes themselves from the
roster. -/
def rosterStateB : EscrowState :=
  resState rosterStateA (applyOp rosterStateA (.removeAdmin 9 9))

/-- Counterexample to C9 as stated: the deploying identity (9) is not
the first roster member in every reachable state — after `addAdmin 5`
and `removeAdmin 9` the reachable roster is `[5]`. -/
theorem deployer_first_admin_counterexample :
    Reachable 9 rosterStateB ∧ rosterStateB.adminList = [5] ∧
    ¬ rosterStateB.adminList.head? = some 9 :=
  ⟨@Reachable.next 9 rosterStateA rosterStateB (.removeAdmin 9 9) []
      (@Reachable.next 9 (initialState 9) rosterStateA (.addAdmin 9 5) []
        Reachable.init rfl) rfl,
   by decide, by decide⟩

/-- C9 (amended): the roster is non-empty in every reachable state and
the deploying identity is its first member at deployment; `addAdmin`
only appends, rejecting duplicates and the zero address; `removeAdmin`
fails with a StateError on a non-member or the last remaining member
and otherwise removes by swapping with the last element and
truncating. -/
theorem admin_roster_rules :
    (∀ (dep : Address) (s : EscrowState), Reachable dep s →
      ¬ s.adminList = []) ∧
    (∀ dep : Address, (initialState dep).adminList = [dep]) ∧
    (∀ (s s' : EscrowState) (sender a : Address) (tr : List Action),
      addAdmin s sender a = .ok (s', tr) →
      s.isAdmin a = false ∧ ¬ a = 0 ∧
      s'.adminList = s.adminList ++ [a]) ∧
    (∀ (s : EscrowState) (sender a : Address), sender = s.owner →
      s.isAdmin a = false →
      removeAdmin s sender a = .error ⟨.state, "Not an admin"⟩) ∧
    (∀ (s : EscrowState) (sender a : Address), sender = s.owner →
      s.isAdmin a = true → ¬ 1 < s.adminList.length →
      removeAdmin s sender a =
        .error ⟨.state, "Cannot remove last admin"⟩) ∧
    (∀ (s s' : EscrowState) (sender a : Address) (tr : List Action),
      removeAdmin s sender a = .ok (s', tr) →
      s'.adminList = swapRemove s.adminList a) := by
  refine ⟨?_, fun dep => rfl, ?_, ?_, ?_, ?_⟩
  · intro dep s h
    exact reachable_adminList_ne_nil h
  · intro s s' sender a tr h
    obtain ⟨_, hdup, hz, hs, _⟩ := addAdmin_ok h
    subst hs
    exact ⟨hdup, hz, rfl⟩
  · intro s sender a hown hnad
    simp [removeAdmin, hown, hnad]
  · intro s sender a hown had hlen
    simp [removeAdmin, hown, had, hlen]
  · intro s s' sender a tr h
    obtain ⟨_, _, _, hs, _⟩ := removeAdmin_ok h
    subst hs
    rfl

/-- Witness for the amended C9 at concrete rosters. -/
theorem admin_roster_rules_witness :
    ¬ rosterStateA.adminList = [] ∧
    (initialState 7).adminList = [7] ∧
    ((initialState 9).isAdmin 5 = false ∧ ¬ (5 : Address) = 0 ∧
      rosterStateA.adminList = (initialState 9).adminList ++ [5]) ∧
    removeAdmin (initialState 9) 9 4 = .error ⟨.state, "Not an admin"⟩ ∧
    removeAdmin (initialState 9) 9 9 =
      .error ⟨.state, "Cannot remove last admin"⟩ ∧
    rosterStateB.adminList = swapRemove rosterStateA.adminList 9 :=
  ⟨admin_roster_rules.1 9 rosterStateA
      (@Reachable.next 9 (initialState 9) rosterStateA (.addAdmin 9 5) []
        Reachable.init rfl),
   admin_roster_rules.2.1 7,
   admin_roster_rules.2.2.1 (initialState 9) rosterStateA 9 5 [] rfl,
   admin_roster_rules.2.2.2.1 (initialState 9) 9 4 rfl rfl,
   admin_roster_rules.2.2.2.2.1 (initialState 9) 9 9 rfl rfl (by decide),
   admin_roster_rules.2.2.2.2.2 rosterStateA rosterStateB 9 9 [] rfl⟩

/-- Counterexample to C5 as stated: while paused, `setPlatformFee` is
not rejected — the owner changes the fee successfully — and an
operation whose earlier guard fails is rejected with that guard's
error, not an UnavailableError. -/
theorem pause_gate_counterexample :
    pausedState.paused = true ∧
    resOk (setPlatformFee pausedState 9 7) = true ∧
    (resState pausedState (setPlatformFee pausedState 9 7)).platformFeePercent
      = 7 ∧
    pausedState.platformFeePercent = 2 ∧
    acceptProject pausedState 3 5 5 =
      .error ⟨.validation, "Project does not exist"⟩ :=
  ⟨rfl, rfl, rfl, rfl, rfl⟩

/-- C5 (amended): while paused, every mutating operation except
`pause`, `unpause`, `addAdmin`, `removeAdmin` and `setPlatformFee` is
rejected without mutating state; the error is the UnavailableError of
the pause gate once the operation's earlier existence and role guards
pass (otherwise that earlier guard's error is reported); and
`setPlatformFee` is not pause-gated: the owner can change the fee while
paused. -/
theorem pause_gate_rules (s : EscrowState) (hpau : s.paused = true) :
    (∀ sender value now title dhash descs amounts deadlines,
      createProject s sender value now title dhash descs amounts
        deadlines = .error ⟨.unavailable, "Pausable: paused"⟩) ∧
    (∀ sender user rating, rateUser s sender user rating =
      .error ⟨.unavailable, "Pausable: paused"⟩) ∧
    (∀ sender now pid,
      (∃ e, acceptProject s sender now pid = .error e) ∧
      (pid < s.projectCounter → acceptProject s sender now pid =
        .error ⟨.unavailable, "Pausable: paused"⟩)) ∧
    (∀ sender now pid mid dh,
      (∃ e, submitMilestone s sender now pid mid dh = .error e) ∧
      (pid < s.projectCounter → sender = (s.projects pid).freelancer →
        submitMilestone s sender now pid mid dh =
          .error ⟨.unavailable, "Pausable: paused"⟩)) ∧
    (∀ sender pid mid,
      (∃ e, approveMilestone s sender pid mid = .error e) ∧
      (pid < s.projectCounter → sender = (s.projects pid).client →
        s.locked = false → approveMilestone s sender pid mid =
          .error ⟨.unavailable, "Pausable: paused"⟩)) ∧
    (∀ sender now pid mid,
      (∃ e, autoApproveMilestone s sender now pid mid = .error e) ∧
      (pid < s.projectCounter → s.locked = false →
        autoApproveMilestone s sender now pid mid =
          .error ⟨.unavailable, "Pausable: paused"⟩)) ∧
    (∀ sender now pid mid reason,
      (∃ e, raiseDispute s sender now pid mid reason = .error e) ∧
      (pid < s.projectCounter →
        (sender = (s.projects pid).client ∨
          sender = (s.projects pid).freelancer) →
        raiseDispute s sender now pid mid reason =
          .error ⟨.unavailable, "Pausable: paused"⟩)) ∧
    (∀ sender did pct,
      (∃ e, voteOnDispute s sender did pct = .error e) ∧
      ((s.isAdmin sender = true ∨ sender = s.owner) →
        voteOnDispute s sender did pct =
          .error ⟨.unavailable, "Pausable: paused"⟩)) ∧
    (∀ sender pid,
      (∃ e, cancelProject s sender pid = .error e) ∧
      (pid < s.projectCounter → sender = (s.projects pid).client →
        s.locked = false → cancelProject s sender pid =
          .error ⟨.unavailable, "Pausable: paused"⟩)) ∧
    (∀ sender feePercent, sender = s.owner → feePercent ≤ 10 →
      setPlatformFee s sender feePercent =
        .ok ({ s with platformFeePercent := feePercent }, [])) := by
  refine ⟨?_, ?_, ?_, ?_, ?_, ?_, ?_, ?_, ?_, ?_⟩
  · intro sender value now title dhash descs amounts deadlines
    simp [createProject, hpau]
  · intro sender user rating
    simp [rateUser, hpau]
  · intro sender now pid
    constructor
    · cases hres : acceptProject s sender now pid with
      | error e => exact ⟨e, rfl⟩
      | ok r =>
          obtain ⟨r1, r2⟩ := r
          obtain ⟨_, hp, _⟩ := acceptProject_ok hres
          simp_all
    · intro hpid
      simp [acceptProject, hpid, hpau]
  · intro sender now pid mid dh
    constructor
    · cases hres : submitMilestone s sender now pid mid dh with
      | error e => exact ⟨e, rfl⟩
      | ok r =>
          obtain ⟨r1, r2⟩ := r
          obtain ⟨_, _, hp, _⟩ := submitMilestone_ok hres
          simp_all
    · intro hpid hsend
      simp [submitMilestone, hpid, hsend, hpau]
  · intro sender pid mid
    constructor
    · cases hres : approveMilestone s sender pid mid with
      | error e => exact ⟨e, rfl⟩
      | ok r =>
          obtain ⟨r1, r2⟩ := r
          obtain ⟨_, _, _, hp, _⟩ := approveMilestone_ok hres
          simp_all
    · intro hpid hsend hlock
      simp [approveMilestone, hpid, hsend, hlock, hpau]
  · intro sender now pid mid
    constructor
    · cases hres : autoApproveMilestone s sender now pid mid with
      | error e => exact ⟨e, rfl⟩
      | ok r =>
          obtain ⟨r1, r2⟩ := r
          obtain ⟨_, _, hp, _⟩ := autoApproveMilestone_ok hres
          simp_all
    · intro hpid hlock
      simp [autoApproveMilestone, hpid, hlock, hpau]
  · intro sender now pid mid reason
    constructor
    · cases hres : raiseDispute s sender now pid mid reason with
      | error e => exact ⟨e, rfl⟩
      | ok r =>
          obtain ⟨r1, r2, r3⟩ := r
          obtain ⟨_, _, hp, _⟩ := raiseDispute_ok hres
          simp_all
    · intro hpid hpart
      simp [raiseDispute, hpid, hpau]
      intro hcon
      rcases hpart with hp | hp <;> simp_all
  · intro sender did pct
    constructor
    · cases hres : voteOnDispute s sender did pct with
      | error e => exact ⟨e, rfl⟩
      | ok r =>
          obtain ⟨r1, r2⟩ := r
          obtain ⟨_, hp, _⟩ := voteOnDispute_ok hres
          simp_all
    · intro hadm
      simp [voteOnDispute, hpau]
      intro hcon
      rcases hadm with hp | hp <;> simp_all
  · intro sender pid
    constructor
    · cases hres : cancelProject s sender pid with
      | error e => exact ⟨e, rfl⟩
      | ok r =>
          obtain ⟨r1, r2⟩ := r
          obtain ⟨_, _, _, hp, _⟩ := cancelProject_ok hres
          simp_all
    · intro hpid hsend hlock
      simp [cancelProject, hpid, hsend, hlock, hpau]
  · intro sender feePercent hown hfee
    simp [setPlatformFee, hown, hfee]

/-- Witness for the amended C5 on `pausedState`. -/
theorem pause_gate_rules_witness :
    createProject pausedState 3 150 20 "t" "d" ["a"] [60] [100] =
      .error ⟨.unavailable, "Pausable: paused"⟩ ∧
    voteOnDispute pausedState 9 0 50 =
      .error ⟨.unavailable, "Pausable: paused"⟩ ∧
    approveMilestone pausedState 1 0 0 =
      .error ⟨.unavailable, "Pausable: paused"⟩ ∧
    setPlatformFee pausedState 9 7 =
      .ok ({ pausedState with platformFeePercent := 7 }, []) :=
  ⟨(pause_gate_rules pausedState rfl).1 3 150 20 "t" "d" ["a"] [60] [100],
   ((pause_gate_rules pausedState rfl).2.2.2.2.2.2.2.1 9 0 50).2
     (Or.inr rfl),
   ((pause_gate_rules pausedState rfl).2.2.2.2.1 1 0 0).2 (by decide) rfl
     rfl,
   (pause_gate_rules pausedState rfl).2.2.2.2.2.2.2.2.2 9 7 rfl
     (by decide)⟩

/-- `disputedState` after admin 9 voted 60 on dispute 0. -/
def voteState1 : EscrowState :=
  resState disputedState (voteOnDispute disputedState 9 0 60)

/-- C4: a vote that reaches the 2-vote quorum resolves the dispute in
the same call: the averaged percentage is the floor average, over the
admin roster in stored order, of the votes of roster members who voted;
the payee receives `floor(amount * avg / 100)`, the payer the
remainder, each transferred only when non-zero and with no platform
fee; for votes 60 and 40 the resolved percentage is 50. -/
theorem dispute_vote_quorum_payout :
    (∀ (s s' : EscrowState) (sender : Address) (did pct : Nat)
        (tr : List Action),
      voteOnDispute s sender did pct = .ok (s', tr) →
      REQUIRED_ADMIN_VOTES ≤ (s.disputes did).voteCount + 1 →
      ∃ m, (s.projectMilestones (s.disputes did).projectId)[
          (s.disputes did).milestoneId]? = some m ∧
        tr = .recordVote did sender pct ::
          ((if 0 < m.amount *
                disputeAvgPercent (withVote s sender did pct) did / 100 then
              [.transferValue
                (s.projects (s.disputes did).projectId).freelancer
                (m.amount *
                  disputeAvgPercent (withVote s sender did pct) did / 100)]
            else []) ++
           (if 0 < m.amount - m.amount *
                disputeAvgPercent (withVote s sender did pct) did / 100 then
              [.transferValue (s.projects (s.disputes did).projectId).client
                (m.amount - m.amount *
                  disputeAvgPercent (withVote s sender did pct) did / 100)]
            else []) ++
           [.setDisputeResolved did,
            .setMilestoneStatus (s.disputes did).projectId
              (s.disputes did).milestoneId .APPROVED,
            .setProjectStatus (s.disputes did).projectId .ACTIVE])) ∧
    (disputeAvgPercent (withVote voteState1 5 0 40) 0 = 50 ∧
     resTrace (voteOnDispute voteState1 5 0 40) =
       [.recordVote 0 5 40, .transferValue 2 50, .transferValue 1 50,
        .setDisputeResolved 0, .setMilestoneStatus 0 0 .APPROVED,
        .setProjectStatus 0 .ACTIVE]) := by
  constructor
  · intro s s' sender did pct tr hvote hq
    obtain ⟨_, _, hdid, hres, hpct, hnv, hcase⟩ := voteOnDispute_ok hvote
    rcases hcase with ⟨hnq, _, _⟩ | ⟨_, tr2, hexec, htr⟩
    · exact absurd hq hnq
    · obtain ⟨_, _, _, m, hm, _, htr2⟩ := executeDisputeResolution_ok hexec
      rw [withVote_projectId, withVote_milestoneId] at hm htr2
      rw [show (withVote s sender did pct).projectMilestones =
            s.projectMilestones from rfl] at hm
      rw [show (withVote s sender did pct).projects = s.projects from rfl]
        at htr2
      exact ⟨m, hm, by rw [htr, htr2]⟩
  · exact ⟨by decide, by decide⟩

/-- Witness for C4: on the concrete disputed scenario, admin 5's vote
of 40 after admin 9's vote of 60 crosses the quorum and pays 50/50. -/
theorem dispute_vote_quorum_payout_witness :
    ∃ m, (voteState1.projectMilestones 0)[0]? = some m ∧
      resTrace (voteOnDispute voteState1 5 0 40) =
        .recordVote 0 5 40 ::
          ((if 0 < m.amount *
                disputeAvgPercent (withVote voteState1 5 0 40) 0 / 100 then
              [.transferValue 2
                (m.amount *
                  disputeAvgPercent (withVote voteState1 5 0 40) 0 / 100)]
            else []) ++
           (if 0 < m.amount - m.amount *
                disputeAvgPercent (withVote voteState1 5 0 40) 0 / 100 then
              [.transferValue 1
                (m.amount - m.amount *
                  disputeAvgPercent (withVote voteState1 5 0 40) 0 / 100)]
            else []) ++
           [.setDisputeResolved 0, .setMilestoneStatus 0 0 .APPROVED,
            .setProjectStatus 0 .ACTIVE]) :=
  dispute_vote_quorum_payout.1 voteState1
    (resState voteState1 (voteOnDispute voteState1 5 0 40)) 5 0 40
    (resTrace (voteOnDispute voteState1 5 0 40)) rfl (by decide)

/-- Counterexample to C1 as stated: the quorum-crossing vote on the
concrete disputed scenario issues both outbound transfers before the
resolved flag, milestone status and project status are committed, so
not all state mutations of the operation precede the transfers. -/
theorem cei_ordering_counterexample :
    resTrace (voteOnDispute voteState1 5 0 40) =
      [.recordVote 0 5 40, .transferValue 2 50, .transferValue 1 50,
       .setDisputeResolved 0, .setMilestoneStatus 0 0 .APPROVED,
       .setProjectStatus 0 .ACTIVE] ∧
    mutationsBeforeTransfers
      (resTrace (voteOnDispute voteState1 5 0 40)) = false :=
  ⟨by decide, by decide⟩

/-- C1 (amended): in manual and auto approval the milestone's APPROVED
commit precedes both transfers while the project's COMPLETED commit,
when it fires, follows them; in dispute resolution every transfer
precedes every state commit — the resolved flag is set after, not
before, the transfers, and the commits (resolved flag, milestone
APPROVED, project ACTIVE) form the tail of the trace. -/
theorem release_commit_transfer_order :
    (∀ (s s' : EscrowState) (sender : Address) (pid mid : Nat)
        (tr : List Action),
      approveMilestone s sender pid mid = .ok (s', tr) →
      ∃ m rest, (s.projectMilestones pid)[mid]? = some m ∧
        tr = .setMilestoneStatus pid mid .APPROVED ::
          .transferValue (s.projects pid).freelancer
            (m.amount - m.amount * s.platformFeePercent / 100) ::
          .transferValue s.owner
            (m.amount * s.platformFeePercent / 100) :: rest ∧
        (rest = [] ∨ rest = [.setProjectStatus pid .COMPLETED])) ∧
    (∀ (s s' : EscrowState) (sender : Address) (now pid mid : Nat)
        (tr : List Action),
      autoApproveMilestone s sender now pid mid = .ok (s', tr) →
      ∃ m rest, (s.projectMilestones pid)[mid]? = some m ∧
        tr = .setMilestoneStatus pid mid .APPROVED ::
          .transferValue (s.projects pid).freelancer
            (m.amount - m.amount * s.platformFeePercent / 100) ::
          .transferValue s.owner
            (m.amount * s.platformFeePercent / 100) :: rest ∧
        (rest = [] ∨ rest = [.setProjectStatus pid .COMPLETED])) ∧
    (∀ (s s' : EscrowState) (did : Nat) (tr : List Action),
      executeDisputeResolution s did = .ok (s', tr) →
      ∃ transfers, tr = transfers ++
          [.setDisputeResolved did,
           .setMilestoneStatus (s.disputes did).projectId
             (s.disputes did).milestoneId .APPROVED,
           .setProjectStatus (s.disputes did).projectId .ACTIVE] ∧
        ∀ act ∈ transfers, ∃ r amt, act = .transferValue r amt) := by
  refine ⟨?_, ?_, ?_⟩
  · intro s s' sender pid mid tr h
    obtain ⟨_, _, _, _, _, _, m1, hm1, _, hrel⟩ := approveMilestone_ok h
    obtain ⟨m, hm, hcase⟩ := releaseMilestonePayment_ok hrel
    rcases hcase with ⟨_, _, htr⟩ | ⟨_, _, htr⟩
    · exact ⟨m, [.setProjectStatus pid .COMPLETED], hm, by rw [htr],
        Or.inr rfl⟩
    · exact ⟨m, [], hm, by rw [htr], Or.inl rfl⟩
  · intro s s' sender now pid mid tr h
    obtain ⟨_, _, _, _, _, m1, hm1, _, _, hrel⟩ := autoApproveMilestone_ok h
    obtain ⟨m, hm, hcase⟩ := releaseMilestonePayment_ok hrel
    rcases hcase with ⟨_, _, htr⟩ | ⟨_, _, htr⟩
    · exact ⟨m, [.setProjectStatus pid .COMPLETED], hm, by rw [htr],
        Or.inr rfl⟩
    · exact ⟨m, [], hm, by rw [htr], Or.inl rfl⟩
  · intro s s' did tr h
    obtain ⟨_, _, _, m, hm, _, htr⟩ := executeDisputeResolution_ok h
    refine ⟨_, by rw [htr], ?_⟩
    intro act hact
    rcases List.mem_append.mp hact with hx | hx <;> split at hx <;>
      simp_all

/-- Witness for the amended C1 on the concrete approval and dispute
scenarios. -/
theorem release_commit_transfer_order_witness :
    (∃ m rest, (demoState.projectMilestones 0)[0]? = some m ∧
      resTrace (approveMilestone demoState 1 0 0) =
        .setMilestoneStatus 0 0 .APPROVED ::
        .transferValue 2 (m.amount - m.amount * 2 / 100) ::
        .transferValue 9 (m.amount * 2 / 100) :: rest ∧
      (rest = [] ∨ rest = [.setProjectStatus 0 .COMPLETED])) ∧
    (∃ transfers, resTrace (executeDisputeResolution votedState 0) =
        transfers ++
          [.setDisputeResolved 0, .setMilestoneStatus 0 0 .APPROVED,
           .setProjectStatus 0 .ACTIVE] ∧
      ∀ act ∈ transfers, ∃ r amt, act = .transferValue r amt) :=
  ⟨release_commit_transfer_order.1 demoState
      (resState demoState (approveMilestone demoState 1 0 0)) 1 0 0
      (resTrace (approveMilestone demoState 1 0 0)) rfl,
   release_commit_transfer_order.2.2 votedState
      (resState votedState (executeDisputeResolution votedState 0)) 0
      (resTrace (executeDisputeResolution votedState 0)) rfl⟩

/-- A reachable state holding one freshly created, still unaccepted
project with one PENDING milestone. -/
def crState : EscrowState :=
  resState (initialState 9)
    (applyOp (initialState 9)
      (.createProject 1 100 0 "t" "d" ["m"] [100] [50]))

/-- C3: over any run of public operations from deployment, a
milestone's status only moves along PENDING → SUBMITTED → {APPROVED |
DISPUTED → APPROVED} — APPROVED is terminal and never exited; and a
second release attempt on an already-APPROVED milestone (manual,
automatic, or via dispute: a new dispute on it, or a vote on its
resolved dispute) fails with a StateError, an error result carrying no
state change and no transfer. -/
theorem milestone_status_machine :
    (∀ (dep : Address) (s s' : EscrowState) (op : Op) (tr : List Action)
        (pid mid : Nat) (m m' : Milestone),
      Reachable dep s → applyOp s op = .ok (s', tr) →
      milestoneAt s pid mid = some m →
      milestoneAt s' pid mid = some m' →
      MAllowed m.status m'.status) ∧
    (∀ (s : EscrowState) (sender : Address) (pid mid : Nat)
        (m : Milestone),
      pid < s.projectCounter → sender = (s.projects pid).client →
      s.locked = false → s.paused = false →
      (s.projects pid).status = .ACTIVE →
      mid < (s.projectMilestones pid).length →
      (s.projectMilestones pid)[mid]? = some m → m.status = .APPROVED →
      approveMilestone s sender pid mid =
        .error ⟨.state, "Milestone not submitted"⟩) ∧
    (∀ (s : EscrowState) (sender : Address) (now pid mid : Nat)
        (m : Milestone),
      pid < s.projectCounter → s.locked = false → s.paused = false →
      (s.projects pid).status = .ACTIVE →
      mid < (s.projectMilestones pid).length →
      (s.projectMilestones pid)[mid]? = some m → m.status = .APPROVED →
      autoApproveMilestone s sender now pid mid =
        .error ⟨.state, "Milestone not submitted"⟩) ∧
    (∀ (s : EscrowState) (sender : Address) (now pid mid : Nat)
        (reason : String) (m : Milestone),
      pid < s.projectCounter →
      (sender = (s.projects pid).client ∨
        sender = (s.projects pid).freelancer) →
      s.paused = false → (s.projects pid).status = .ACTIVE →
      mid < (s.projectMilestones pid).length →
      (s.projectMilestones pid)[mid]? = some m → m.status = .APPROVED →
      raiseDispute s sender now pid mid reason =
        .error ⟨.state, "Can only dispute submitted milestones"⟩) ∧
    (∀ (s : EscrowState) (sender : Address) (did pct : Nat),
      (s.isAdmin sender = true ∨ sender = s.owner) → s.paused = false →
      did < s.disputeCounter → (s.disputes did).isResolved = true →
      voteOnDispute s sender did pct =
        .error ⟨.state, "Dispute already resolved"⟩) := by
  refine ⟨?_, ?_, ?_, ?_, ?_⟩
  · intro dep s s' op tr pid mid m m' hr hstep hm hm'
    exact step_mallowed (reachable_inv hr) hstep hm hm'
  · intro s sender pid mid m hpid hsend hlock hpau hact hlen hm happ
    simp [approveMilestone, hpid, hsend, hlock, hpau, hact, hlen, hm,
      happ]
  · intro s sender now pid mid m hpid hlock hpau hact hlen hm happ
    simp [autoApproveMilestone, hpid, hlock, hpau, hact, hlen, hm, happ]
  · intro s sender now pid mid reason m hpid hpart hpau hact hlen hm happ
    simp [raiseDispute, hpid, hpau, hact, hlen, hm, happ]
    intro hcon
    rcases hpart with hp | hp <;> simp_all
  · intro s sender did pct hadm hpau hdid hres
    simp [voteOnDispute, hpau, hdid, hres]
    intro hcon
    rcases hadm with hp | hp <;> simp_all

/-- Witness for C3: an allowed (unchanged) transition along a concrete
reachable step, and the four StateError rejections on concrete
already-released scenarios. -/
theorem milestone_status_machine_witness :
    MAllowed .PENDING .PENDING ∧
    approveMilestone approvedState 1 0 0 =
      .error ⟨.state, "Milestone not submitted"⟩ ∧
    autoApproveMilestone approvedState 77 999999999 0 0 =
      .error ⟨.state, "Milestone not submitted"⟩ ∧
    raiseDispute approvedState 1 20 0 0 "again" =
      .error ⟨.state, "Can only dispute submitted milestones"⟩ ∧
    voteOnDispute resolvedState 9 0 50 =
      .error ⟨.state, "Dispute already resolved"⟩ :=
  ⟨milestone_status_machine.1 9 crState
      (resState crState (applyOp crState (.acceptProject 2 5 0)))
      (.acceptProject 2 5 0)
      (resTrace (applyOp crState (.acceptProject 2 5 0))) 0 0
      ⟨"m", 100, 50, .PENDING, "", 0⟩ ⟨"m", 100, 50, .PENDING, "", 0⟩
      (@Reachable.next 9 (initialState 9) crState
        (.createProject 1 100 0 "t" "d" ["m"] [100] [50]) []
        Reachable.init rfl)
      rfl rfl rfl,
   milestone_status_machine.2.1 approvedState 1 0 0
     ⟨"m", 100, 1000000, .APPROVED, "h", 10⟩ (by decide) rfl rfl rfl rfl
     (by decide) rfl rfl,
   milestone_status_machine.2.2.1 approvedState 77 999999999 0 0
     ⟨"m", 100, 1000000, .APPROVED, "h", 10⟩ (by decide) rfl rfl rfl
     (by decide) rfl rfl,
   milestone_status_machine.2.2.2.1 approvedState 1 20 0 0 "again"
     ⟨"m", 100, 1000000, .APPROVED, "h", 10⟩ (by decide) (Or.inl rfl) rfl
     rfl (by decide) rfl rfl,
   milestone_status_machine.2.2.2.2 resolvedState 9 0 50 (Or.inl rfl) rfl
     (by decide) rfl⟩

end TrustchainEscrow
